import Mathlib

/-!
Verification development for the network background-animation engine
(`script.js` entry, `network.js` in two variants — a lattice variant using a
central `config.js`, and a scatter variant with a local `CONFIG` object —
plus `config.js`).

The JavaScript source is shallowly embedded:
* JS numbers are modelled as rationals (`ℚ`); `Math.sqrt` is modelled as an
  explicit oracle parameter `sq : ℚ → ℚ` so that every definition stays
  executable, and theorems quantify over the oracle wherever the source
  calls `Math.sqrt`.
* `Math.random()` draws are modelled as explicit inputs: raw draws in `[0,1)`
  become `ℚ` parameters, `randomInt(0, n-1)` / `Math.floor(Math.random()*n)`
  picks become `ℕ` parameters used modulo the list length, and
  `Math.random() < p` tests become `Bool` parameters.
* Node/edge/packet object references become node ids (`ℕ`); in the source the
  ids are the construction indices `0, 1, 2, ...`, unique per node, so
  reference equality coincides with id equality.
* Purely visual fields that no claim touches (CSS color strings,
  `lastEmitTime`, `isSelected`, packet id strings) are omitted.
-/

/-! ### Configuration constants

Lattice variant: from `config.js`.  Scatter variant: from the local `CONFIG`
object of the scatter `network.js`.  The lattice kinematics constants
`NODE_ACCELERATION`, `NODE_DAMPING`, `NODE_MAX_SPEED` are kept as parameters
of the kinematics functions because the claims quantify over the algorithm;
the repo values are recorded here. -/

def PACKET_MAX_HOPS : ℕ := 3

def L_PACKET_SPEED : ℚ := 1/2

def NODE_PULSE_DURATION_SECONDS : ℚ := 1/2

def PROCESSING_FLASH_DURATION_SECONDS : ℚ := 3/10

def L_BLINK_DURATION_SECONDS : ℚ := 1/2

def L_NODE_RADIUS : ℚ := 8

def LATTICE_NOISE_FACTOR : ℚ := 3/5

def MAX_HOPS : ℕ := 3

def S_PACKET_SPEED : ℚ := 1/2

def S_BLINK_DURATION : ℚ := 1/2

def S_NODE_MAX_SPEED : ℚ := 1/2

def S_NODE_ACCELERATION : ℚ := 1/20

def S_NODE_DAMPING : ℚ := 49/50

def S_NODE_DRIFT_RADIUS : ℚ := 30

def S_NODE_RETURN_FORCE : ℚ := 1/100

def S_NODE_MARGIN : ℚ := 30

/-! ### Lattice variant: data model -/

/-- A node of the lattice-variant network (`class Node`, first `network.js`).
`connections` is omitted: the lattice variant pushes outgoing edges into it
but never reads it (routing filters `this.edges` directly). -/
structure LNode where
  id : ℕ
  x : ℚ
  y : ℚ
  originalX : ℚ
  originalY : ℚ
  vx : ℚ
  vy : ℚ
  gridR : ℕ
  gridC : ℕ
deriving Repr, DecidableEq, Inhabited

/-- A directed edge (`class Edge`), stored by node ids. -/
structure LEdge where
  sourceId : ℕ
  targetId : ℕ
deriving Repr, DecidableEq, Inhabited

/-- A packet of the lattice variant (`class Packet`, first `network.js`). -/
structure LPacket where
  sourceId : ℕ
  targetId : ℕ
  finalTargetId : ℕ
  x : ℚ
  y : ℚ
  progress : ℚ
  hops : ℕ
  path : List ℕ
  active : Bool
deriving Repr, DecidableEq, Inhabited

/-- The role of a node pulse (`type` field of `effects.nodePulses` entries);
the associated color is a fixed config constant per role and is omitted. -/
inductive PulseType where
  | send
  | receiveFinal
  | route
deriving Repr, DecidableEq

structure LPulse where
  nodeId : ℕ
  time : ℚ
  ptype : PulseType
deriving Repr, DecidableEq

structure LFlash where
  nodeId : ℕ
  time : ℚ
deriving Repr, DecidableEq

structure LBlink where
  nodeId : ℕ
  time : ℚ
deriving Repr, DecidableEq

/-- The per-instance effect queues of the lattice variant (`this.effects`). -/
structure LEffects where
  nodePulses : List LPulse
  processingFlashes : List LFlash
  blinks : List LBlink
deriving Repr, DecidableEq

/-- The lattice-variant `Network` instance state. -/
structure LState where
  canvasWidth : ℚ
  canvasHeight : ℚ
  nodes : List LNode
  edges : List LEdge
  packets : List LPacket
  effects : LEffects
deriving Repr, DecidableEq

/-- Look up a node by id (`packet.targetNode` etc. are direct object
references in the source; ids are unique so lookup is faithful). -/
def lnodeById (nodes : List LNode) (i : ℕ) : LNode :=
  (nodes.find? (fun n => n.id == i)).getD default

/-- The outgoing edges of node `i`:
`this.edges.filter(edge => edge.source.id === i)`. -/
def loutgoing (edges : List LEdge) (i : ℕ) : List LEdge :=
  edges.filter (fun e => e.sourceId == i)

/-! ### Lattice variant: packet arrival (`Network._handlePacketArrival`) -/

/-- The previous node on the path as read at line
`packet.path.length > 1 ? packet.path[packet.path.length - 2] : null`
(evaluated after the arrived node has been pushed onto the path). -/
def llastNodeOf (path : List ℕ) : Option ℕ :=
  if 1 < path.length then path.get? (path.length - 2) else none

/-- First-stage candidates: outgoing edges of the arrived node whose target is
neither the immediate predecessor nor anywhere in the visited path. -/
def lstage1 (edges : List LEdge) (atNodeId : ℕ) (lastN : Option ℕ) (path : List ℕ) :
    List LEdge :=
  edges.filter (fun e =>
    e.sourceId == atNodeId &&
    (match lastN with
     | some l => e.targetId != l
     | none => true) &&
    !(path.contains e.targetId))

/-- Second-stage (fallback) candidates: outgoing edges excluding only the
immediate predecessor. -/
def lstage2 (edges : List LEdge) (atNodeId : ℕ) (lastN : Option ℕ) : List LEdge :=
  edges.filter (fun e =>
    e.sourceId == atNodeId &&
    (match lastN with
     | some l => e.targetId != l
     | none => true))

/-- `Network._handlePacketArrival(packet, atNode)` of the lattice variant.
`r` models the single `randomInt` draw used to pick among candidate edges
(an arbitrary natural taken modulo the candidate count). -/
def lhandlePacketArrival (edges : List LEdge) (eff : LEffects) (p : LPacket)
    (atNodeId : ℕ) (r : ℕ) : LPacket × LEffects :=
  let p1 := { p with progress := 0, path := p.path ++ [atNodeId] }
  if atNodeId = p1.finalTargetId then
    ({ p1 with active := false },
     { eff with
        nodePulses := eff.nodePulses ++ [⟨atNodeId, 0, PulseType.receiveFinal⟩],
        processingFlashes := eff.processingFlashes ++ [⟨atNodeId, 0⟩] })
  else
    let p2 := { p1 with hops := p1.hops + 1 }
    if PACKET_MAX_HOPS ≤ p2.hops then
      ({ p2 with active := false }, eff)
    else
      let lastN := llastNodeOf p2.path
      let s1 := lstage1 edges atNodeId lastN p2.path
      let s2 := lstage2 edges atNodeId lastN
      let s3 := loutgoing edges atNodeId
      let p3 :=
        if s1.isEmpty then
          if !s2.isEmpty then
            { p2 with sourceId := atNodeId,
                      targetId := (s2.getD (r % s2.length) default).targetId }
          else
            if !s3.isEmpty then
              { p2 with sourceId := atNodeId,
                        targetId := (s3.getD (r % s3.length) default).targetId }
            else
              { p2 with active := false }
        else
          { p2 with sourceId := atNodeId,
                    targetId := (s1.getD (r % s1.length) default).targetId }
      let eff1 :=
        if p3.active then
          { eff with nodePulses := eff.nodePulses ++ [⟨atNodeId, 0, PulseType.route⟩] }
        else eff
      (p3, { eff1 with processingFlashes := eff1.processingFlashes ++ [⟨atNodeId, 0⟩] })

/-! ### Lattice variant: `Network.updatePackets` -/

/-- The blinks pushed by the inactive-packet sweep at the top of
`updatePackets`: the loop scans the packet list from its end and pushes a
blink at the `sourceNode` of every inactive packet (`packet.sourceNode` is
always a valid node reference, so the `||` fallback never fires). -/
def lsweepBlinks (ps : List LPacket) : List LBlink :=
  (ps.reverse.filter (fun p => !p.active)).map (fun p => ⟨p.sourceId, 0⟩)

/-- The surviving packets of the sweep: actives pushed in reverse scan order,
then `.reverse()`-d back. -/
def lsweepActive (ps : List LPacket) : List LPacket :=
  ((ps.reverse.filter (fun p => p.active)).reverse)

/-- Processing of one packet inside the `forEach` of `updatePackets`:
advance progress, handle arrival at `progress ≥ 1`, then update the packet's
x/y from its source/target nodes if it is still active. -/
def lprocessPacket (nodes : List LNode) (edges : List LEdge) (dt : ℚ)
    (eff : LEffects) (rs : List ℕ) (p : LPacket) :
    LPacket × LEffects × List ℕ :=
  if !p.active then (p, eff, rs)
  else
    let p1 := { p with progress := p.progress + L_PACKET_SPEED * dt }
    let (p2, eff2, rs2) :=
      if 1 ≤ p1.progress then
        let p1 := { p1 with progress := 1 }
        let (q, e) := lhandlePacketArrival edges eff p1 p1.targetId (rs.headD 0)
        (q, e, rs.tail)
      else (p1, eff, rs)
    if p2.active then
      let src := lnodeById nodes p2.sourceId
      let tgt := lnodeById nodes p2.targetId
      ({ p2 with
          x := src.x + (tgt.x - src.x) * p2.progress,
          y := src.y + (tgt.y - src.y) * p2.progress }, eff2, rs2)
    else (p2, eff2, rs2)

/-- One step of the `forEach` fold of the lattice `updatePackets`. -/
def lpacketStep (nodes : List LNode) (edges : List LEdge) (dt : ℚ)
    (acc : List LPacket × LEffects × List ℕ) (p : LPacket) :
    List LPacket × LEffects × List ℕ :=
  let (q, eff2, rs2) := lprocessPacket nodes edges dt acc.2.1 acc.2.2 p
  (acc.1 ++ [q], eff2, rs2)

/-- `Network.updatePackets(dt)` of the lattice variant.  `rs` is the stream of
`randomInt` draws consumed by arrivals (one per arrival). -/
def lupdatePackets (s : LState) (dt : ℚ) (rs : List ℕ) : LState :=
  let eff0 := { s.effects with blinks := s.effects.blinks ++ lsweepBlinks s.packets }
  let survivors := lsweepActive s.packets
  let res := survivors.foldl (lpacketStep s.nodes s.edges dt) ([], eff0, rs)
  { s with packets := res.1, effects := res.2.1 }

/-! ### Lattice variant: `Network.sendRandomPacket` -/

/-- The random draws consumed by one call of the lattice
`sendRandomPacket`: the source index, the position used to model
`shuffleArray(...)[0]` on the alternate-source list, the first-hop edge
index, the `Math.random() < 0.7` multi-hop test, and the per-iteration edge
picks and `Math.random() < 0.3` early-stop tests of the planning walk. -/
structure LEmitRand where
  srcIdx : ℕ
  altIdx : ℕ
  edgeIdx : ℕ
  tryMulti : Bool
  wIdx : ℕ → ℕ
  wStop : ℕ → Bool

/-- The final-target planning walk of `sendRandomPacket` (the
`for (let i = 0; i < config.PACKET_MAX_HOPS - 1; i++)` loop): walk forward
through edges avoiding ids already visited in this planning walk, updating
the final target at every step, stopping early when the candidate list is
empty or the early-stop draw fires. -/
def lplanWalk (edges : List LEdge) (wIdx : ℕ → ℕ) (wStop : ℕ → Bool) :
    ℕ → ℕ → ℕ → List ℕ → ℕ → ℕ
  | 0, _, _, _, finalT => finalT
  | fuel + 1, i, cur, visited, finalT =>
    let pot := edges.filter (fun e => e.sourceId == cur && !(visited.contains e.targetId))
    if pot.isEmpty then finalT
    else
      let nxt := (pot.getD (wIdx i % pot.length) default).targetId
      if wStop i then nxt
      else lplanWalk edges wIdx wStop fuel (i + 1) nxt (visited ++ [nxt]) nxt

/-- The tail of `sendRandomPacket` once a source node has been fixed:
pick an outgoing edge as first hop, optionally extend to a multi-hop final
target, push the packet and a `send` pulse at the source. -/
def lemitFrom (s : LState) (rnd : LEmitRand) (source : LNode) : LState :=
  let direct := loutgoing s.edges source.id
  if direct.isEmpty then s
  else
    let targetEdge := direct.getD (rnd.edgeIdx % direct.length) default
    let firstHop := targetEdge.targetId
    let finalT :=
      if 0 < PACKET_MAX_HOPS ∧ rnd.tryMulti then
        lplanWalk s.edges rnd.wIdx rnd.wStop (PACKET_MAX_HOPS - 1) 0 firstHop
          [source.id, firstHop] firstHop
      else firstHop
    let packet : LPacket :=
      { sourceId := source.id, targetId := firstHop, finalTargetId := finalT,
        x := source.x, y := source.y, progress := 0, hops := 0,
        path := [source.id], active := true }
    { s with
        packets := s.packets ++ [packet],
        effects := { s.effects with
          nodePulses := s.effects.nodePulses ++ [⟨source.id, 0, PulseType.send⟩] } }

/-- `Network.sendRandomPacket()` of the lattice variant.  The
`shuffleArray(...)` followed by `[0]` on the alternate-source list is
modelled as picking the element at an arbitrary input position `altIdx`. -/
def lsendRandomPacket (s : LState) (rnd : LEmitRand) : LState :=
  if s.nodes.length < 2 ∨ s.edges.isEmpty then s
  else
    let source0 := s.nodes.getD (rnd.srcIdx % s.nodes.length) default
    if (loutgoing s.edges source0.id).isEmpty then
      let possible := s.nodes.filter (fun n => s.edges.any (fun e => e.sourceId == n.id))
      if possible.isEmpty then s
      else lemitFrom s rnd (possible.getD (rnd.altIdx % possible.length) default)
    else lemitFrom s rnd source0

/-! ### Lattice variant: `Network.advanceEffects` -/

/-- `Network.advanceEffects(dt)`: advance every effect's time, then drop the
effects whose time has reached the kind's configured duration. -/
def ladvanceEffects (s : LState) (dt : ℚ) : LState :=
  let pulses := (s.effects.nodePulses.map (fun p => { p with time := p.time + dt })).filter
    (fun p => p.time < NODE_PULSE_DURATION_SECONDS)
  let flashes := (s.effects.processingFlashes.map (fun f => { f with time := f.time + dt })).filter
    (fun f => f.time < PROCESSING_FLASH_DURATION_SECONDS)
  let blinks := (s.effects.blinks.map (fun b => { b with time := b.time + dt })).filter
    (fun b => b.time < L_BLINK_DURATION_SECONDS)
  { s with effects := ⟨pulses, flashes, blinks⟩ }

/-! ### Lattice variant: `Network.updateDimensions` -/

/-- `Math.ceil(Math.sqrt(q))` for `q > 0`: the least natural `n` with
`q ≤ n ^ 2`, found by bounded upward search (the fuel `⌈q⌉ + 1` always
suffices). -/
def ceilSqrtFrom (q : ℚ) : ℕ → ℕ → ℕ
  | 0, n => n
  | fuel + 1, n => if q ≤ (n : ℚ) ^ 2 then n else ceilSqrtFrom q fuel (n + 1)

def ceilSqrt (q : ℚ) : ℕ :=
  ceilSqrtFrom q ((Int.ceil q).toNat + 1) 0

/-- The `while (cols * rows > numNodes * 1.5 && cols > 1 && rows > 1)` grid
adjustment loop, with explicit fuel (the loop strictly decreases
`cols + rows`, so `cols + rows` steps always suffice). -/
def lgridAdjust (numNodes : ℕ) : ℕ → ℕ × ℕ → ℕ × ℕ
  | 0, cr => cr
  | fuel + 1, (cols, rows) =>
    if (numNodes : ℚ) * (3/2) < (cols : ℚ) * (rows : ℚ) ∧ 1 < cols ∧ 1 < rows then
      if numNodes ≤ (cols - 1) * rows then lgridAdjust numNodes fuel (cols - 1, rows)
      else if numNodes ≤ cols * (rows - 1) then lgridAdjust numNodes fuel (cols, rows - 1)
      else (cols, rows)
    else (cols, rows)

/-- `Network.updateDimensions(newCanvasWidth, newCanvasHeight)`.
`rnd i` supplies the two `Math.random()` draws used for the jitter of the
`i`-th node of the list. -/
def lupdateDimensions (s : LState) (w h : ℚ) (rnd : ℕ → ℚ × ℚ) : LState :=
  let s1 := { s with canvasWidth := w, canvasHeight := h }
  let numNodes := s1.nodes.length
  if numNodes = 0 then s1
  else
    let aspect := s1.canvasWidth / s1.canvasHeight
    let cols0 := ceilSqrt ((numNodes : ℚ) * aspect)
    let rows0 := (Int.ceil ((numNodes : ℚ) / (cols0 : ℚ))).toNat
    let cr := lgridAdjust numNodes (cols0 + rows0) (cols0, rows0)
    let cellWidth := s1.canvasWidth / (cr.1 : ℚ)
    let cellHeight := s1.canvasHeight / (cr.2 : ℚ)
    let margin := L_NODE_RADIUS * 2 + 5
    let nodes := s1.nodes.enum.map (fun ic =>
      let n := ic.2
      let baseX := ((n.gridC : ℚ) + 1/2) * cellWidth
      let baseY := ((n.gridR : ℚ) + 1/2) * cellHeight
      let noiseX := ((rnd ic.1).1 - 1/2) * cellWidth * LATTICE_NOISE_FACTOR
      let noiseY := ((rnd ic.1).2 - 1/2) * cellHeight * LATTICE_NOISE_FACTOR
      let newX := max margin (min (s1.canvasWidth - margin) (baseX + noiseX))
      let newY := max margin (min (s1.canvasHeight - margin) (baseY + noiseY))
      { n with x := newX, y := newY, originalX := newX, originalY := newY })
    { s1 with nodes := nodes }

/-! ### Lattice variant: `Network.updateNodePositions`

`config.js` defines `NODE_ACCELERATION = 0` and no
`NODE_RETURN_FORCE_STRENGTH` at all, so in the source that key reads as
`undefined`; it is modelled as an `Option ℚ` (`none` = the repo state).
`0 === undefined` is `false` in JS, so with the repo config the static
branch is not taken, and `undefined > 0` is `false`, so the return force is
skipped. -/

/-- The velocity pipeline of the main branch of the lattice
`updateNodePositions` (random acceleration, damping, speed clamp), i.e. the
value of `(node.vx, node.vy)` at the `node.x += node.vx * dt` line. -/
def lvelPipeline (sq : ℚ → ℚ) (dt acc damping maxSpeed : ℚ) (rx ry : ℚ)
    (n : LNode) : ℚ × ℚ :=
  let vx := n.vx + ((rx - 1/2) * 2 * acc) * dt
  let vy := n.vy + ((ry - 1/2) * 2 * acc) * dt
  let vx := vx * damping
  let vy := vy * damping
  if 0 < maxSpeed then
    let speed := sq (vx * vx + vy * vy)
    if maxSpeed < speed then (vx / speed * maxSpeed, vy / speed * maxSpeed)
    else (vx, vy)
  else (vx, vy)

/-- One node's update in the main branch of the lattice
`updateNodePositions`: velocity pipeline, position integration by
`velocity * dt`, optional return force (velocity only), then sequential
boundary clamps with damped velocity inversion. -/
def lupdateNode (sq : ℚ → ℚ) (w h dt acc damping maxSpeed : ℚ) (ret : Option ℚ)
    (radius : ℚ) (rx ry : ℚ) (n : LNode) : LNode :=
  let v := lvelPipeline sq dt acc damping maxSpeed rx ry n
  let x := n.x + v.1 * dt
  let y := n.y + v.2 * dt
  let v :=
    match ret with
    | some rf =>
      if 0 < rf then
        (v.1 + (n.originalX - x) * rf * dt, v.2 + (n.originalY - y) * rf * dt)
      else v
    | none => v
  let (x, vx) := if x < radius then (radius, v.1 * (-1/2)) else (x, v.1)
  let (x, vx) := if w - radius < x then (w - radius, vx * (-1/2)) else (x, vx)
  let (y, vy) := if y < radius then (radius, v.2 * (-1/2)) else (y, v.2)
  let (y, vy) := if h - radius < y then (h - radius, vy * (-1/2)) else (y, vy)
  { n with x := x, y := y, vx := vx, vy := vy }

/-- One node's update in the static branch (taken when
`NODE_ACCELERATION === 0 && NODE_RETURN_FORCE_STRENGTH === 0`): strong
damping of residual velocity, then position integration by `velocity * dt`. -/
def lstaticNode (dt damping : ℚ) (n : LNode) : LNode :=
  let vx := n.vx * (1 - (1 - damping) * 10 * dt)
  let vy := n.vy * (1 - (1 - damping) * 10 * dt)
  { n with vx := vx, vy := vy, x := n.x + vx * dt, y := n.y + vy * dt }

/-- `Network.updateNodePositions(dt)` of the lattice variant.  `rnd i` gives
the two acceleration draws of the `i`-th node. -/
def lupdateNodePositions (sq : ℚ → ℚ) (dt acc damping maxSpeed : ℚ)
    (ret : Option ℚ) (radius : ℚ) (rnd : ℕ → ℚ × ℚ) (s : LState) : LState :=
  if acc = 0 ∧ ret = some 0 then
    { s with nodes := s.nodes.map (fun n => lstaticNode dt damping n) }
  else
    { s with nodes := s.nodes.enum.map (fun ic =>
        lupdateNode sq s.canvasWidth s.canvasHeight dt acc damping maxSpeed ret
          radius (rnd ic.1).1 (rnd ic.1).2 ic.2) }

/-! ### Lattice variant: `Network._createClosestNeighborEdges`

The per-source candidate list (all other nodes sorted by ascending distance)
and the per-source random edge budget `randomInt(EDGES_PER_NODE_MIN,
EDGES_PER_NODE_MAX)` are taken as inputs: the dedup invariant is proved for
every candidate order and budget, which subsumes the distance-sorted order
and the random budget of the source. -/

/-- The duplicate check of the lattice edge creation: an edge between
`a` and `b` already exists in either direction. -/
def ledgeExists (edges : List LEdge) (a b : ℕ) : Bool :=
  edges.any (fun e =>
    (e.sourceId == a && e.targetId == b) || (e.sourceId == b && e.targetId == a))

/-- The inner candidate loop for one source node: connect to candidates in
order, skipping already-connected pairs, until the budget is exhausted. -/
def lconnectOne (a : ℕ) : List ℕ → ℕ → List LEdge → List LEdge
  | [], _, edges => edges
  | t :: ts, budget, edges =>
    if budget = 0 then edges
    else if ledgeExists edges a t then lconnectOne a ts budget edges
    else lconnectOne a ts (budget - 1) (edges ++ [⟨a, t⟩])

/-- The whole `_createClosestNeighborEdges` run: fold the per-source loop
over the source nodes; each source comes with its candidate order and its
random budget. -/
def lcreateEdges (sources : List (ℕ × List ℕ × ℕ)) (edges0 : List LEdge) : List LEdge :=
  sources.foldl (fun edges src => lconnectOne src.1 src.2.1 src.2.2 edges) edges0

/-! ### Scatter variant: data model -/

/-- A node of the scatter-variant network (`class Node`, second
`network.js`).  `connections` stores the ids of connected nodes (the source
pushes the node objects of both endpoints in `_addEdge`). -/
structure SNode where
  id : ℕ
  x : ℚ
  y : ℚ
  originalX : ℚ
  originalY : ℚ
  vx : ℚ
  vy : ℚ
  connections : List ℕ
deriving Repr, DecidableEq, Inhabited

/-- An edge of the scatter variant, by node ids. -/
structure SEdge where
  src : ℕ
  tgt : ℕ
deriving Repr, DecidableEq, Inhabited

/-- A packet of the scatter variant (`class Packet`, second `network.js`).
`removalTime` models `removalEffect.time` (the blink object pushed into the
global effect queue aliases this field; the aliasing itself is not needed by
any claim and is not modelled). -/
structure SPacket where
  sourceId : ℕ
  targetId : ℕ
  progress : ℚ
  active : Bool
  hops : ℕ
  prevNodeId : Option ℕ
  removed : Bool
  removalTime : Option ℚ
  finalTargetId : Option ℕ
deriving Repr, DecidableEq, Inhabited

inductive RippleType where
  | target
  | normal
deriving Repr, DecidableEq

structure SRipple where
  nodeId : ℕ
  time : ℚ
  rtype : RippleType
deriving Repr, DecidableEq

structure SBlink where
  nodeId : ℕ
  time : ℚ
deriving Repr, DecidableEq

structure SFlash where
  nodeId : ℕ
  time : ℚ
deriving Repr, DecidableEq

/-- The global `networkEffects` queues consumed by the scatter variant. -/
structure SEffects where
  ripples : List SRipple
  blinks : List SBlink
  processingFlashes : List SFlash
deriving Repr, DecidableEq

/-- The scatter-variant `Network` instance state. -/
structure SState where
  width : ℚ
  height : ℚ
  nodes : List SNode
  edges : List SEdge
  packets : List SPacket
deriving Repr, DecidableEq

/-- Node lookup by id (object references in the source; ids unique). -/
def sfind (nodes : List SNode) (i : ℕ) : SNode :=
  (nodes.find? (fun n => n.id == i)).getD default

/-! ### Scatter variant: packet arrival and `updatePackets` -/

/-- `Network._getValidNeighbors(node, prevNode)`: the node's connections
excluding the immediate predecessor. -/
def sgetValidNeighbors (conns : List ℕ) (prevNodeId : Option ℕ) : List ℕ :=
  conns.filter (fun c => some c != prevNodeId)

/-- `Network._handlePacketArrival(packet, effects)` of the scatter variant:
clamp progress to 1, push a ripple, deactivate at the final target, else
increment hops, drop with a blink past `MAX_HOPS`, else forward to a valid
neighbor (or deactivate when none). -/
def shandlePacketArrival (nodes : List SNode) (eff : SEffects) (p : SPacket)
    (r : ℕ) : SPacket × SEffects :=
  let p1 := { p with progress := 1 }
  let atNodeId := p1.targetId
  let eff1 := { eff with ripples := eff.ripples ++
    [⟨atNodeId, 0,
      if p1.finalTargetId = some atNodeId then RippleType.target else RippleType.normal⟩] }
  if p1.finalTargetId = some atNodeId then
    ({ p1 with active := false }, eff1)
  else
    let p2 := { p1 with hops := p1.hops + 1 }
    if MAX_HOPS < p2.hops then
      ({ p2 with active := false, removed := true, removalTime := some 0 },
       { eff1 with blinks := eff1.blinks ++ [⟨atNodeId, 0⟩] })
    else
      let neighbors := sgetValidNeighbors (sfind nodes atNodeId).connections p2.prevNodeId
      if neighbors.isEmpty then
        ({ p2 with active := false }, eff1)
      else
        ({ p2 with prevNodeId := some atNodeId, sourceId := atNodeId,
                   targetId := neighbors.getD (r % neighbors.length) 0,
                   progress := 0 },
         { eff1 with processingFlashes := eff1.processingFlashes ++ [⟨atNodeId, 0⟩] })

/-- `Network._cleanupPackets()`: keep active packets and removed packets
whose removal blink is still alive. -/
def scleanupPackets (ps : List SPacket) : List SPacket :=
  ps.filter (fun p => p.active ||
    (p.removed && (match p.removalTime with
                   | some t => t < S_BLINK_DURATION
                   | none => false)))

/-- One packet's processing in the scatter `updatePackets` loop. -/
def sprocessPacket (nodes : List SNode) (dt : ℚ) (eff : SEffects) (rs : List ℕ)
    (p : SPacket) : SPacket × SEffects × List ℕ :=
  if !p.active then (p, eff, rs)
  else
    let p1 := { p with progress := p.progress + dt * S_PACKET_SPEED }
    if 1 ≤ p1.progress then
      let (q, e) := shandlePacketArrival nodes eff p1 (rs.headD 0)
      (q, e, rs.tail)
    else (p1, eff, rs)

/-- One step of the packet loop of the scatter `updatePackets`. -/
def spacketStep (nodes : List SNode) (dt : ℚ)
    (acc : List SPacket × SEffects × List ℕ) (p : SPacket) :
    List SPacket × SEffects × List ℕ :=
  let (q, eff2, rs2) := sprocessPacket nodes dt acc.2.1 acc.2.2 p
  (acc.1 ++ [q], eff2, rs2)

/-- `Network.updatePackets(dt, effects)` of the scatter variant:
advance/arrive every active packet, then `_cleanupPackets()`. -/
def supdatePackets (s : SState) (eff : SEffects) (dt : ℚ) (rs : List ℕ) :
    SState × SEffects :=
  let res := s.packets.foldl (spacketStep s.nodes dt) ([], eff, rs)
  ({ s with packets := scleanupPackets res.1 }, res.2.1)

/-! ### Scatter variant: `Network.sendRandomPacket` -/

/-- `Network._getRandomNode(exclude)`: a do-while loop redrawing while the
drawn node is the excluded one and the network has more than one node.
`idxs` is the stream of random indices; an exhausted stream (which models
the JS loop never getting a successful draw) yields `none`. -/
def sgetRandomNode (nodes : List SNode) (exclude : Option ℕ) :
    List ℕ → Option SNode
  | [] => none
  | i :: rest =>
    let node := nodes.getD (i % nodes.length) default
    if some node.id = exclude ∧ 1 < nodes.length then
      sgetRandomNode nodes exclude rest
    else some node

/-- Random draws of one scatter `sendRandomPacket` call. -/
structure SEmitRand where
  srcIdx : ℕ
  tgtIdxs : List ℕ
  hopIdx : ℕ
deriving Repr

/-- `Network.sendRandomPacket()` of the scatter variant: needs at least two
nodes; picks a random source and a random distinct target; silently returns
when the source has no connections (no resampling); otherwise emits a packet
whose first hop is a random connection of the source and whose final target
id is the random target's id. -/
def ssendRandomPacket (s : SState) (rnd : SEmitRand) : SState :=
  if s.nodes.length < 2 then s
  else
    let source := s.nodes.getD (rnd.srcIdx % s.nodes.length) default
    match sgetRandomNode s.nodes (some source.id) rnd.tgtIdxs with
    | none => s
    | some target =>
      if source.connections.isEmpty then s
      else
        let firstHop := source.connections.getD (rnd.hopIdx % source.connections.length) 0
        let packet : SPacket :=
          { sourceId := source.id, targetId := firstHop, progress := 0,
            active := true, hops := 0, prevNodeId := none, removed := false,
            removalTime := none, finalTargetId := some target.id }
        { s with packets := s.packets ++ [packet] }

/-! ### Scatter variant: `_normalizeNodePositions` and `resizeCanvas` -/

def qmin : List ℚ → ℚ
  | [] => 0
  | h :: t => t.foldl min h

def qmax : List ℚ → ℚ
  | [] => 0
  | h :: t => t.foldl max h

/-- `maxX - minX || 1`: a zero span falls back to 1 (the only falsy rational
value of the expression is 0; rationals have no NaN). -/
def spanOf (lo hi : ℚ) : ℚ :=
  if hi - lo = 0 then 1 else hi - lo

/-- `Network._normalizeNodePositions(updateOriginalPositions)`: rescale all
nodes to fill the canvas inside the margin, optionally updating the origin
anchors. -/
def snormalizeNodePositions (s : SState) (updateOriginal : Bool) : SState :=
  if s.nodes.isEmpty then s
  else
    let minX := qmin (s.nodes.map (fun n => n.x))
    let maxX := qmax (s.nodes.map (fun n => n.x))
    let minY := qmin (s.nodes.map (fun n => n.y))
    let maxY := qmax (s.nodes.map (fun n => n.y))
    let spanX := spanOf minX maxX
    let spanY := spanOf minY maxY
    { s with nodes := s.nodes.map (fun n =>
        let newX := S_NODE_MARGIN + ((n.x - minX) / spanX) * (s.width - 2 * S_NODE_MARGIN)
        let newY := S_NODE_MARGIN + ((n.y - minY) / spanY) * (s.height - 2 * S_NODE_MARGIN)
        if updateOriginal then
          { n with x := newX, y := newY, originalX := newX, originalY := newY }
        else
          { n with x := newX, y := newY }) }

/-- `Network.resizeCanvas(width, height)`: update dimensions; when nodes
exist, zero all velocities and re-normalize positions updating origins. -/
def sresizeCanvas (s : SState) (w h : ℚ) : SState :=
  let s1 := { s with width := w, height := h }
  if s1.nodes.length = 0 then s1
  else
    let s2 := { s1 with nodes := s1.nodes.map (fun n => { n with vx := 0, vy := 0 }) }
    snormalizeNodePositions s2 true

/-! ### Scatter variant: `Network.updateNodePositions` -/

/-- Velocity after random acceleration, damping and the speed clamp
(the value of `(node.vx, node.vy)` after the `NODE_MAX_SPEED` check). -/
def svelPipeline (sq : ℚ → ℚ) (ax ay : ℚ) (n : SNode) : ℚ × ℚ :=
  let vx := (n.vx + (ax - 1/2) * S_NODE_ACCELERATION) * S_NODE_DAMPING
  let vy := (n.vy + (ay - 1/2) * S_NODE_ACCELERATION) * S_NODE_DAMPING
  let speed := sq (vx * vx + vy * vy)
  if S_NODE_MAX_SPEED < speed then
    (vx / speed * S_NODE_MAX_SPEED, vy / speed * S_NODE_MAX_SPEED)
  else (vx, vy)

/-- One node's update in the scatter `updateNodePositions`: velocity
pipeline, distance-guarded return force, then either the drift-radius hard
clamp with bounce or plain position integration `x += vx` (the supplied time
delta is never used by this variant). -/
def supdateNode (sq : ℚ → ℚ) (ax ay : ℚ) (n : SNode) : SNode :=
  let v := svelPipeline sq ax ay n
  let dx := n.x - n.originalX
  let dy := n.y - n.originalY
  let dist := sq (dx * dx + dy * dy)
  let v :=
    if 0 < dist then
      let f := S_NODE_RETURN_FORCE * (dist / S_NODE_DRIFT_RADIUS) ^ 2
      (v.1 - dx / dist * f, v.2 - dy / dist * f)
    else v
  if S_NODE_DRIFT_RADIUS < dist then
    { n with x := n.originalX + dx / dist * S_NODE_DRIFT_RADIUS,
             y := n.originalY + dy / dist * S_NODE_DRIFT_RADIUS,
             vx := v.1 * (-1/2), vy := v.2 * (-1/2) }
  else
    { n with x := n.x + v.1, y := n.y + v.2, vx := v.1, vy := v.2 }

/-- `Network.updateNodePositions(dt)` of the scatter variant.  The parameter
`dt` is accepted (as in the source signature) but ignored by the body. -/
def supdateNodePositions (sq : ℚ → ℚ) (dt : ℚ) (rnd : ℕ → ℚ × ℚ) (s : SState) :
    SState :=
  { s with nodes := s.nodes.enum.map (fun ic =>
      supdateNode sq (rnd ic.1).1 (rnd ic.1).2 ic.2) }

/-! ### Scatter variant: edge generation

Connections are modelled as a map `ℕ → List ℕ` from node id to connected
ids (the source stores the same data as a `connections` array on each node
object).  Candidate orders (all other nodes sorted by ascending squared
distance) and per-node budgets (`1 + Math.floor(Math.random()*NODE_MAX_CONN)`)
are inputs; the dedup theorem quantifies over all of them. -/

structure SGraph where
  conns : ℕ → List ℕ
  edges : List SEdge

/-- `Network._addEdge(a, b)`: push each endpoint into the other's
connections and record the edge. -/
def saddEdge (g : SGraph) (a b : ℕ) : SGraph :=
  let c1 := Function.update g.conns a (g.conns a ++ [b])
  let c2 := Function.update c1 b (c1 b ++ [a])
  { conns := c2, edges := g.edges ++ [⟨a, b⟩] }

/-- The strict counter-clockwise test `ccw(p1, p2, p3)` of `edgesCross`. -/
def sccw (p1 p2 p3 : ℚ × ℚ) : Bool :=
  decide ((p2.2 - p1.2) * (p3.1 - p1.1) < (p3.2 - p1.2) * (p2.1 - p1.1))

/-- `edgesCross(a, b, c, d)`: strict segment intersection with shared
endpoints excluded (reference comparisons modelled by id). -/
def sedgesCross (pos : ℕ → ℚ × ℚ) (a b c d : ℕ) : Bool :=
  a != c && a != d && b != c && b != d &&
  (sccw (pos a) (pos c) (pos d) != sccw (pos b) (pos c) (pos d)) &&
  (sccw (pos a) (pos b) (pos c) != sccw (pos a) (pos b) (pos d))

/-- `Network._edgeWouldCross(a, b)` over the current edge list. -/
def sedgeWouldCross (pos : ℕ → ℚ × ℚ) (g : SGraph) (a b : ℕ) : Bool :=
  g.edges.any (fun e => sedgesCross pos a b e.src e.tgt)

/-- The inner candidate loop of `_createEdges` for one source node. -/
def sconnectOne (pos : ℕ → ℚ × ℚ) (a : ℕ) : List ℕ → ℕ → SGraph → SGraph
  | [], _, g => g
  | b :: bs, budget, g =>
    if budget = 0 then g
    else if (g.conns a).contains b then sconnectOne pos a bs budget g
    else if sedgeWouldCross pos g a b then sconnectOne pos a bs budget g
    else sconnectOne pos a bs (budget - 1) (saddEdge g a b)

/-- The whole `_createEdges` run, folding the per-source loop over all
source nodes, starting from empty connections and no edges. -/
def screateEdges (pos : ℕ → ℚ × ℚ) (sources : List (ℕ × List ℕ × ℕ)) : SGraph :=
  sources.foldl (fun g src => sconnectOne pos src.1 src.2.1 src.2.2 g)
    ⟨fun _ => [], []⟩

/-! ### Scatter variant: division-checked mirrors (for the numeric-safety
claim)

`cdiv` is division that fails on a zero divisor.  The two functions below
repeat `_normalizeNodePositions` and the scatter node update with every
division checked; proving them total (always `some`) and equal to the plain
definitions shows no division by zero is reachable. -/

def cdiv (a b : ℚ) : Option ℚ :=
  if b = 0 then none else some (a / b)

/-- `_normalizeNodePositions` with checked divisions. -/
def snormalizeChecked (s : SState) (updateOriginal : Bool) : Option SState :=
  if s.nodes.isEmpty then some s
  else
    let minX := qmin (s.nodes.map (fun n => n.x))
    let maxX := qmax (s.nodes.map (fun n => n.x))
    let minY := qmin (s.nodes.map (fun n => n.y))
    let maxY := qmax (s.nodes.map (fun n => n.y))
    let spanX := spanOf minX maxX
    let spanY := spanOf minY maxY
    (s.nodes.mapM (fun (n : SNode) => do
      let qx ← cdiv (n.x - minX) spanX
      let qy ← cdiv (n.y - minY) spanY
      let newX := S_NODE_MARGIN + qx * (s.width - 2 * S_NODE_MARGIN)
      let newY := S_NODE_MARGIN + qy * (s.height - 2 * S_NODE_MARGIN)
      pure (if updateOriginal then
          { n with x := newX, y := newY, originalX := newX, originalY := newY }
        else
          { n with x := newX, y := newY }))).map
      (fun nodes => { s with nodes := nodes })

/-- The scatter node update with checked divisions. -/
def supdateNodeChecked (sq : ℚ → ℚ) (ax ay : ℚ) (n : SNode) : Option SNode := do
  let vx := (n.vx + (ax - 1/2) * S_NODE_ACCELERATION) * S_NODE_DAMPING
  let vy := (n.vy + (ay - 1/2) * S_NODE_ACCELERATION) * S_NODE_DAMPING
  let speed := sq (vx * vx + vy * vy)
  let v ←
    if S_NODE_MAX_SPEED < speed then do
      let a ← cdiv vx speed
      let b ← cdiv vy speed
      pure (a * S_NODE_MAX_SPEED, b * S_NODE_MAX_SPEED)
    else pure (vx, vy)
  let dx := n.x - n.originalX
  let dy := n.y - n.originalY
  let dist := sq (dx * dx + dy * dy)
  let v ←
    if 0 < dist then do
      let q ← cdiv dist S_NODE_DRIFT_RADIUS
      let f := S_NODE_RETURN_FORCE * q ^ 2
      let ddx ← cdiv dx dist
      let ddy ← cdiv dy dist
      pure (v.1 - ddx * f, v.2 - ddy * f)
    else pure v
  if S_NODE_DRIFT_RADIUS < dist then do
    let ddx ← cdiv dx dist
    let ddy ← cdiv dy dist
    pure { n with x := n.originalX + ddx * S_NODE_DRIFT_RADIUS,
                  y := n.originalY + ddy * S_NODE_DRIFT_RADIUS,
                  vx := v.1 * (-1/2), vy := v.2 * (-1/2) }
  else
    pure { n with x := n.x + v.1, y := n.y + v.2, vx := v.1, vy := v.2 }

/-! ### Unordered-pair equality of edges (for the dedup invariant) -/

/-- Two lattice edges connect the same unordered node pair. -/
def lsamePair (e f : LEdge) : Prop :=
  (e.sourceId = f.sourceId ∧ e.targetId = f.targetId) ∨
  (e.sourceId = f.targetId ∧ e.targetId = f.sourceId)

instance (e f : LEdge) : Decidable (lsamePair e f) := by
  unfold lsamePair; infer_instance

/-- Two scatter edges connect the same unordered node pair. -/
def ssamePair (e f : SEdge) : Prop :=
  (e.src = f.src ∧ e.tgt = f.tgt) ∨ (e.src = f.tgt ∧ e.tgt = f.src)

instance (e f : SEdge) : Decidable (ssamePair e f) := by
  unfold ssamePair; infer_instance

/-! ### Reachable states

A lattice (resp. scatter) state is reachable when it arises from a freshly
constructed network (empty packet list) by any sequence of the mutating
operations of the `Network` class, each with arbitrary time deltas and
random draws.  These relations give the "every sequence of tick/arrival
steps" quantification of the invariant claims. -/

inductive LReach : LState → Prop where
  | init (s : LState) (h : s.packets = []) : LReach s
  | emit (s : LState) (rnd : LEmitRand) (h : LReach s) :
      LReach (lsendRandomPacket s rnd)
  | update (s : LState) (dt : ℚ) (rs : List ℕ) (h : LReach s) :
      LReach (lupdatePackets s dt rs)
  | dims (s : LState) (w h2 : ℚ) (rnd : ℕ → ℚ × ℚ) (h : LReach s) :
      LReach (lupdateDimensions s w h2 rnd)
  | fx (s : LState) (dt : ℚ) (h : LReach s) : LReach (ladvanceEffects s dt)
  | move (s : LState) (sq : ℚ → ℚ) (dt acc damping maxSpeed : ℚ)
      (ret : Option ℚ) (radius : ℚ) (rnd : ℕ → ℚ × ℚ) (h : LReach s) :
      LReach (lupdateNodePositions sq dt acc damping maxSpeed ret radius rnd s)

inductive SReach : SState → Prop where
  | init (s : SState) (h : s.packets = []) : SReach s
  | emit (s : SState) (rnd : SEmitRand) (h : SReach s) :
      SReach (ssendRandomPacket s rnd)
  | update (s : SState) (eff : SEffects) (dt : ℚ) (rs : List ℕ) (h : SReach s) :
      SReach (supdatePackets s eff dt rs).1
  | resize (s : SState) (w h2 : ℚ) (h : SReach s) : SReach (sresizeCanvas s w h2)
  | move (s : SState) (sq : ℚ → ℚ) (dt : ℚ) (rnd : ℕ → ℚ × ℚ) (h : SReach s) :
      SReach (supdateNodePositions sq dt rnd s)

/-- States reachable from a given scatter state by packet updates alone
(used to follow one packet's whole lifetime). -/
inductive SReachFrom (s0 : SState) : SState → Prop where
  | refl : SReachFrom s0 s0
  | update (s : SState) (eff : SEffects) (dt : ℚ) (rs : List ℕ)
      (h : SReachFrom s0 s) : SReachFrom s0 (supdatePackets s eff dt rs).1

/-! ### Concrete instances used by counterexamples and witnesses -/

/-- A two-node lattice network with one edge `0 → 1` and a single in-flight
packet whose final target equals its first-hop target. -/
def cxC1State : LState :=
  ⟨100, 100,
   [⟨0, 10, 10, 10, 10, 0, 0, 0, 0⟩, ⟨1, 90, 10, 90, 10, 0, 0, 0, 1⟩],
   [⟨0, 1⟩],
   [⟨0, 1, 1, 10, 10, 0, 0, [0], true⟩],
   ⟨[], [], []⟩⟩

/-- Two scatter nodes connected to each other only. -/
def cxSNodes : List SNode :=
  [⟨0, 0, 0, 0, 0, 0, 0, [1]⟩, ⟨1, 50, 0, 50, 0, 0, 0, [0]⟩]

/-- A packet that has just arrived at node 0 coming from node 1, with a
final target elsewhere, under the hop limit. -/
def cxC4Packet : SPacket :=
  ⟨1, 0, 1, true, 0, some 1, false, none, some 5⟩

/-- A scatter network whose randomly chosen source (node 0) has no
connections while node 1 and node 2 are connected to each other. -/
def cxC5State : SState :=
  ⟨100, 100,
   [⟨0, 0, 0, 0, 0, 0, 0, []⟩, ⟨1, 10, 0, 10, 0, 0, 0, [2]⟩,
    ⟨2, 20, 0, 20, 0, 0, 0, [1]⟩],
   [⟨1, 2⟩], []⟩

/-- A one-node lattice network whose node carries nonzero velocity. -/
def cxC6State : LState :=
  ⟨100, 100, [⟨0, 10, 10, 10, 10, 5, 7, 0, 0⟩], [], [], ⟨[], [], []⟩⟩

/-- A scatter node at its origin with residual x-velocity `1/10`. -/
def cxC8Node : SNode := ⟨0, 0, 0, 0, 0, 1/10, 0, []⟩

/-- A truthful `Math.sqrt` oracle for the two values the C8 run needs:
`sqrt((49/500)^2) = 49/500` and `sqrt 0 = 0`. -/
def cxC8Sqrt : ℚ → ℚ := fun q => if q = (49/500) ^ 2 then 49/500 else 0

def cxC8State : SState := ⟨100, 100, [cxC8Node], [], []⟩

/-- A four-node scatter network of two disconnected components `{0, 1}` and
`{2, 3}`, with one packet launched from node 0 toward first hop 1 whose
final target is node 2 — unreachable from the component of its source. -/
def cxC10State : SState :=
  ⟨100, 100,
   [⟨0, 0, 0, 0, 0, 0, 0, [1]⟩, ⟨1, 10, 0, 10, 0, 0, 0, [0]⟩,
    ⟨2, 50, 0, 50, 0, 0, 0, [3]⟩, ⟨3, 60, 0, 60, 0, 0, 0, [2]⟩],
   [⟨0, 1⟩, ⟨2, 3⟩],
   [⟨0, 1, 0, true, 0, none, false, none, some 2⟩]⟩

/-- A two-node lattice network with no packets (for reachability witnesses). -/
def cxC2LBase : LState :=
  ⟨100, 100, [⟨0, 0, 0, 0, 0, 0, 0, 0, 0⟩, ⟨1, 0, 0, 0, 0, 0, 0, 0, 1⟩],
   [⟨0, 1⟩], [], ⟨[], [], []⟩⟩

/-- The draws that make `sendRandomPacket` pick node 0 and its single
outgoing edge, without the multi-hop extension. -/
def cxC2LRand : LEmitRand := ⟨0, 0, 0, false, fun _ => 0, fun _ => false⟩

/-- A two-node scatter network with no packets. -/
def cxC2SBase : SState :=
  ⟨100, 100, [⟨0, 0, 0, 0, 0, 0, 0, [1]⟩, ⟨1, 10, 0, 10, 0, 0, 0, [0]⟩],
   [⟨0, 1⟩], []⟩

def cxC2SRand : SEmitRand := ⟨0, [1], 0⟩

/-! ## Helper lemmas -/

theorem getD_mod_mem {α : Type} (l : List α) (r : ℕ) (d : α) (h : l ≠ []) :
    l.getD (r % l.length) d ∈ l := by
  have hlen : 0 < l.length := List.length_pos.mpr h
  have hlt : r % l.length < l.length := Nat.mod_lt _ hlen
  rw [List.getD_eq_getElem?_getD, List.getElem?_eq_getElem hlt]
  exact List.getElem_mem _

theorem mapM_option_loop {α β : Type} (f : α → β) (l : List α) (acc : List β) :
    List.mapM.loop (fun a => some (f a)) l acc = some (acc.reverse ++ l.map f) := by
  induction l generalizing acc with
  | nil => simp [List.mapM.loop]
  | cons a t ih => simp [List.mapM.loop, ih]

theorem mapM_option_some {α β : Type} (f : α → β) (l : List α) :
    l.mapM (fun a => some (f a)) = some (l.map f) := by
  rw [List.mapM]
  simpa using mapM_option_loop f l []

/-! ## C1: arrival at a final target equal to the first hop -/

/-- Lattice `_handlePacketArrival` at the final target: deactivate, push
exactly one `receive_final` pulse and one processing flash, touch nothing
else. -/
theorem lhandle_final (edges : List LEdge) (eff : LEffects) (p : LPacket)
    (a : ℕ) (r : ℕ) (h : a = p.finalTargetId) :
    lhandlePacketArrival edges eff p a r =
      ({ p with progress := 0, path := p.path ++ [a], active := false },
       { eff with
          nodePulses := eff.nodePulses ++ [⟨a, 0, PulseType.receiveFinal⟩],
          processingFlashes := eff.processingFlashes ++ [⟨a, 0⟩] }) := by
  simp [lhandlePacketArrival, h]

/-- The inactive-packet sweep at the start of the lattice `updatePackets`
pushes a blink at the source node of every inactive packet — including a
packet that was deactivated because it reached its final target. -/
theorem lupdate_sweep_blink (s : LState) (dt : ℚ) (rs : List ℕ) (p : LPacket)
    (hps : s.packets = [p]) (hp : p.active = false) :
    (lupdatePackets s dt rs).effects.blinks =
        s.effects.blinks ++ [⟨p.sourceId, 0⟩] ∧
    (lupdatePackets s dt rs).packets = [] := by
  simp [lupdatePackets, lsweepBlinks, lsweepActive, hps, hp]

/-- Scatter `_handlePacketArrival` at the final target: deactivate with a
`target` ripple; no pulse, no processing flash, no blink. -/
theorem shandle_final (nodes : List SNode) (eff : SEffects) (p : SPacket)
    (r : ℕ) (h : p.finalTargetId = some p.targetId) :
    shandlePacketArrival nodes eff p r =
      ({ p with progress := 1, active := false },
       { eff with ripples := eff.ripples ++ [⟨p.targetId, 0, RippleType.target⟩] }) := by
  simp [shandlePacketArrival, h]

/-- C1 (corrected): a packet whose final target id equals its first-hop
target's id deactivates on its first arrival.  In the lattice variant the
arrival emits exactly one `receive_final` pulse and one processing flash at
that node and no blink — but when the now-inactive packet is swept out of
the packet list by a later `updatePackets`, a blink IS pushed at its source
node.  In the scatter variant the arrival emits a `target` ripple and
nothing else (no pulse, flash or blink). -/
theorem C1_final_arrival :
    (∀ (edges : List LEdge) (eff : LEffects) (p : LPacket) (a r : ℕ),
      a = p.finalTargetId →
      lhandlePacketArrival edges eff p a r =
        ({ p with progress := 0, path := p.path ++ [a], active := false },
         { eff with
            nodePulses := eff.nodePulses ++ [⟨a, 0, PulseType.receiveFinal⟩],
            processingFlashes := eff.processingFlashes ++ [⟨a, 0⟩] })) ∧
    (∀ (s : LState) (dt : ℚ) (rs : List ℕ) (p : LPacket),
      s.packets = [p] → p.active = false →
      (lupdatePackets s dt rs).effects.blinks =
          s.effects.blinks ++ [⟨p.sourceId, 0⟩] ∧
      (lupdatePackets s dt rs).packets = []) ∧
    (∀ (nodes : List SNode) (eff : SEffects) (p : SPacket) (r : ℕ),
      p.finalTargetId = some p.targetId →
      shandlePacketArrival nodes eff p r =
        ({ p with progress := 1, active := false },
         { eff with ripples := eff.ripples ++ [⟨p.targetId, 0, RippleType.target⟩] })) :=
  ⟨lhandle_final, lupdate_sweep_blink, shandle_final⟩

/-- C1 counterexample to the claim as stated: in the lattice variant, a
packet whose final target equals its first-hop target (node 1) arrives
during the first `updatePackets` and is deactivated with one
`receive_final` pulse and one flash; the second `updatePackets` sweep then
emits a Blink for that very packet, contradicting "no Blink effect is ever
emitted for that packet". -/
theorem C1_counterexample :
    cxC1State.packets.map (fun p => p.finalTargetId) =
        cxC1State.packets.map (fun p => p.targetId) ∧
    (lupdatePackets cxC1State 2 [0]).effects.nodePulses =
        [⟨1, 0, PulseType.receiveFinal⟩] ∧
    (lupdatePackets cxC1State 2 [0]).effects.blinks = [] ∧
    (lupdatePackets (lupdatePackets cxC1State 2 [0]) 2 [0]).effects.blinks =
        [⟨0, 0⟩] := by
  refine ⟨by norm_num [cxC1State], ?_, ?_, ?_⟩ <;>
    norm_num [lupdatePackets, lsweepBlinks, lsweepActive, lpacketStep, lprocessPacket,
      lhandlePacketArrival, lnodeById, loutgoing, lstage1, lstage2, llastNodeOf,
      L_PACKET_SPEED, PACKET_MAX_HOPS, cxC1State]

/-- Witness for `C1_final_arrival` at concrete inputs. -/
theorem C1_witness :
    lhandlePacketArrival [] ⟨[], [], []⟩ ⟨0, 1, 1, 0, 0, 1, 0, [0], true⟩ 1 0 =
      (⟨0, 1, 1, 0, 0, 0, 0, [0, 1], false⟩,
       ⟨[⟨1, 0, PulseType.receiveFinal⟩], [⟨1, 0⟩], []⟩) ∧
    (lupdatePackets (lupdatePackets cxC1State 2 [0]) 2 [0]).packets = [] ∧
    shandlePacketArrival [] ⟨[], [], []⟩ ⟨0, 1, 1, true, 0, none, false, none, some 1⟩ 0 =
      (⟨0, 1, 1, false, 0, none, false, none, some 1⟩,
       ⟨[⟨1, 0, RippleType.target⟩], [], []⟩) := by
  refine ⟨?_, ?_, ?_⟩
  · simpa using C1_final_arrival.1 [] ⟨[], [], []⟩ ⟨0, 1, 1, 0, 0, 1, 0, [0], true⟩ 1 0 rfl
  · exact (C1_final_arrival.2.1 (lupdatePackets cxC1State 2 [0]) 2 [0]
      ⟨0, 1, 1, 10, 10, 0, 0, [0, 1], false⟩
      (by norm_num [lupdatePackets, lsweepBlinks, lsweepActive, lpacketStep,
        lprocessPacket, lhandlePacketArrival, lnodeById, loutgoing, lstage1,
        lstage2, llastNodeOf, L_PACKET_SPEED, PACKET_MAX_HOPS, cxC1State])
      rfl).2
  · simpa using C1_final_arrival.2.2 [] ⟨[], [], []⟩
      ⟨0, 1, 1, true, 0, none, false, none, some 1⟩ 0 rfl

/-! ## C2: hop count never exceeds the maximum while active -/

/-- Any packet coming out of the lattice arrival handler with its active
flag still set has hop count strictly below `PACKET_MAX_HOPS`. -/
theorem lhandle_active_hops (edges : List LEdge) (eff : LEffects) (p : LPacket)
    (a r : ℕ) (h : ((lhandlePacketArrival edges eff p a r).1).active = true) :
    ((lhandlePacketArrival edges eff p a r).1).hops ≤ PACKET_MAX_HOPS := by
  simp only [lhandlePacketArrival] at h ⊢
  split_ifs at h ⊢ with h1 h2 <;> simp_all <;> omega

/-- A lattice arrival that leaves the hop count above the limit has
deactivated the packet. -/
theorem lhandle_over_limit (edges : List LEdge) (eff : LEffects) (p : LPacket)
    (a r : ℕ) (h : PACKET_MAX_HOPS < ((lhandlePacketArrival edges eff p a r).1).hops) :
    ((lhandlePacketArrival edges eff p a r).1).active = false := by
  simp only [lhandlePacketArrival] at h ⊢
  split_ifs at h ⊢ with h1 h2 <;> simp_all [PACKET_MAX_HOPS] <;> omega

/-- Same for the scatter arrival handler, with its `>`-shaped check. -/
theorem shandle_active_hops (nodes : List SNode) (eff : SEffects) (p : SPacket)
    (r : ℕ) (h : ((shandlePacketArrival nodes eff p r).1).active = true) :
    ((shandlePacketArrival nodes eff p r).1).hops ≤ MAX_HOPS := by
  simp only [shandlePacketArrival] at h ⊢
  split_ifs at h ⊢ with h1 h2 h3 <;> simp_all <;> omega

theorem shandle_over_limit (nodes : List SNode) (eff : SEffects) (p : SPacket)
    (r : ℕ) (h : MAX_HOPS < ((shandlePacketArrival nodes eff p r).1).hops) :
    ((shandlePacketArrival nodes eff p r).1).active = false := by
  simp only [shandlePacketArrival] at h ⊢
  split_ifs at h ⊢ with h1 h2 h3 <;> simp_all [MAX_HOPS] <;> omega

/-- The lattice per-packet processing preserves the hop bound of active
packets. -/
theorem lprocess_hops (nodes : List LNode) (edges : List LEdge) (dt : ℚ)
    (eff : LEffects) (rs : List ℕ) (p : LPacket)
    (hpre : p.active = true → p.hops ≤ PACKET_MAX_HOPS)
    (h : ((lprocessPacket nodes edges dt eff rs p).1).active = true) :
    ((lprocessPacket nodes edges dt eff rs p).1).hops ≤ PACKET_MAX_HOPS := by
  simp only [lprocessPacket] at h ⊢
  split_ifs at h ⊢ with h1 h2
  · exact hpre h
  all_goals first
    | (exact lhandle_active_hops _ _ _ _ _ (by simpa using h))
    | (apply hpre; simp_all)

/-- The scatter per-packet processing preserves the hop bound of active
packets. -/
theorem sprocess_hops (nodes : List SNode) (dt : ℚ) (eff : SEffects)
    (rs : List ℕ) (p : SPacket)
    (hpre : p.active = true → p.hops ≤ MAX_HOPS)
    (h : ((sprocessPacket nodes dt eff rs p).1).active = true) :
    ((sprocessPacket nodes dt eff rs p).1).hops ≤ MAX_HOPS := by
  simp only [sprocessPacket] at h ⊢
  split_ifs at h ⊢ with h1 h2
  · exact hpre h
  all_goals first
    | (exact shandle_active_hops _ _ _ _ (by simpa using h))
    | (apply hpre; simp_all)

/-- Every packet in the output of the lattice packet fold satisfies `P`
whenever the accumulator's packets do and processing any input packet
(under any effect queue and random stream) lands in `P`. -/
theorem lfold_mem {P : LPacket → Prop} (nodes : List LNode) (edges : List LEdge)
    (dt : ℚ) (ps : List LPacket) (acc : List LPacket × LEffects × List ℕ)
    (hacc : ∀ q ∈ acc.1, P q)
    (hstep : ∀ eff rs p, p ∈ ps → P ((lprocessPacket nodes edges dt eff rs p).1)) :
    ∀ q ∈ (ps.foldl (lpacketStep nodes edges dt) acc).1, P q := by
  induction ps generalizing acc with
  | nil => simpa using hacc
  | cons p t ih =>
    intro q hq
    refine ih (lpacketStep nodes edges dt acc p) ?_ ?_ q hq
    · intro x hx
      simp only [lpacketStep, List.mem_append, List.mem_singleton] at hx
      rcases hx with hx | hx
      · exact hacc x hx
      · subst hx; exact hstep acc.2.1 acc.2.2 p (List.mem_cons_self _ _)
    · intro eff rs x hx
      exact hstep eff rs x (List.mem_cons_of_mem _ hx)

/-- Scatter analogue of `lfold_mem`. -/
theorem sfold_mem {P : SPacket → Prop} (nodes : List SNode) (dt : ℚ)
    (ps : List SPacket) (acc : List SPacket × SEffects × List ℕ)
    (hacc : ∀ q ∈ acc.1, P q)
    (hstep : ∀ eff rs p, p ∈ ps → P ((sprocessPacket nodes dt eff rs p).1)) :
    ∀ q ∈ (ps.foldl (spacketStep nodes dt) acc).1, P q := by
  induction ps generalizing acc with
  | nil => simpa using hacc
  | cons p t ih =>
    intro q hq
    refine ih (spacketStep nodes dt acc p) ?_ ?_ q hq
    · intro x hx
      simp only [spacketStep, List.mem_append, List.mem_singleton] at hx
      rcases hx with hx | hx
      · exact hacc x hx
      · subst hx; exact hstep acc.2.1 acc.2.2 p (List.mem_cons_self _ _)
    · intro eff rs x hx
      exact hstep eff rs x (List.mem_cons_of_mem _ hx)

/-- The sweep keeps only packets of the incoming list. -/
theorem lsweepActive_subset (ps : List LPacket) (q : LPacket)
    (h : q ∈ lsweepActive ps) : q ∈ ps := by
  simp only [lsweepActive, List.mem_reverse, List.mem_filter] at h
  exact h.1

/-- `_cleanupPackets` keeps only packets of the incoming list. -/
theorem scleanup_subset (ps : List SPacket) (q : SPacket)
    (h : q ∈ scleanupPackets ps) : q ∈ ps :=
  (List.mem_filter.mp h).1

/-- The packets of `(lupdatePackets s dt rs)` are the fold's output. -/
theorem lupdatePackets_packets (s : LState) (dt : ℚ) (rs : List ℕ) :
    (lupdatePackets s dt rs).packets =
      ((lsweepActive s.packets).foldl (lpacketStep s.nodes s.edges dt)
        ([], { s.effects with blinks := s.effects.blinks ++ lsweepBlinks s.packets },
          rs)).1 := rfl

/-- The packets of `(supdatePackets s eff dt rs).1`. -/
theorem supdatePackets_packets (s : SState) (eff : SEffects) (dt : ℚ) (rs : List ℕ) :
    (supdatePackets s eff dt rs).1.packets =
      scleanupPackets ((s.packets.foldl (spacketStep s.nodes dt) ([], eff, rs)).1) := rfl

/-- `sendRandomPacket` (lattice) leaves the packet list unchanged or appends
exactly one fresh packet (`hops = 0`, `progress = 0`, active). -/
theorem lsend_packets (s : LState) (rnd : LEmitRand) :
    (lsendRandomPacket s rnd).packets = s.packets ∨
    ∃ pk : LPacket, pk.hops = 0 ∧ pk.active = true ∧ pk.progress = 0 ∧
      (lsendRandomPacket s rnd).packets = s.packets ++ [pk] := by
  simp only [lsendRandomPacket, lemitFrom]
  split_ifs <;> first
    | (left; rfl)
    | (right; exact ⟨_, rfl, rfl, rfl, rfl⟩)

/-- `sendRandomPacket` (scatter) leaves the packet list unchanged or appends
exactly one fresh packet. -/
theorem ssend_packets (s : SState) (rnd : SEmitRand) :
    (ssendRandomPacket s rnd).packets = s.packets ∨
    ∃ pk : SPacket, pk.hops = 0 ∧ pk.active = true ∧ pk.progress = 0 ∧
      (ssendRandomPacket s rnd).packets = s.packets ++ [pk] := by
  simp only [ssendRandomPacket]
  split
  · left; rfl
  · split
    · left; rfl
    · split
      · left; rfl
      · right; exact ⟨_, rfl, rfl, rfl, rfl⟩

/-- The remaining lattice operations do not touch the packet list. -/
theorem ldims_packets (s : LState) (w h : ℚ) (rnd : ℕ → ℚ × ℚ) :
    (lupdateDimensions s w h rnd).packets = s.packets := by
  simp only [lupdateDimensions]
  split_ifs <;> rfl

theorem lfx_packets (s : LState) (dt : ℚ) : (ladvanceEffects s dt).packets = s.packets := rfl

theorem lmove_packets (sq : ℚ → ℚ) (dt acc damping maxSpeed : ℚ) (ret : Option ℚ)
    (radius : ℚ) (rnd : ℕ → ℚ × ℚ) (s : LState) :
    (lupdateNodePositions sq dt acc damping maxSpeed ret radius rnd s).packets =
      s.packets := by
  simp only [lupdateNodePositions]
  split_ifs <;> rfl

/-- The remaining scatter operations do not touch the packet list. -/
theorem snormalize_packets (s : SState) (u : Bool) :
    (snormalizeNodePositions s u).packets = s.packets := by
  simp only [snormalizeNodePositions]
  split_ifs <;> rfl

theorem sresize_packets (s : SState) (w h : ℚ) :
    (sresizeCanvas s w h).packets = s.packets := by
  simp only [sresizeCanvas]
  split_ifs with h1
  · rfl
  · rw [snormalize_packets]

theorem smove_packets (sq : ℚ → ℚ) (dt : ℚ) (rnd : ℕ → ℚ × ℚ) (s : SState) :
    (supdateNodePositions sq dt rnd s).packets = s.packets := rfl

/-- The hop-bound invariant survives one lattice `updatePackets` call. -/
theorem lupdate_hops (s : LState) (dt : ℚ) (rs : List ℕ)
    (hpre : ∀ p ∈ s.packets, p.active = true → p.hops ≤ PACKET_MAX_HOPS) :
    ∀ q ∈ (lupdatePackets s dt rs).packets, q.active = true →
      q.hops ≤ PACKET_MAX_HOPS := by
  rw [lupdatePackets_packets]
  refine lfold_mem s.nodes s.edges dt _ _ (by simp) ?_
  intro eff rs2 p hp
  exact fun h => lprocess_hops s.nodes s.edges dt eff rs2 p
    (hpre p (lsweepActive_subset _ _ hp)) h

/-- The hop-bound invariant survives one scatter `updatePackets` call. -/
theorem supdate_hops (s : SState) (eff : SEffects) (dt : ℚ) (rs : List ℕ)
    (hpre : ∀ p ∈ s.packets, p.active = true → p.hops ≤ MAX_HOPS) :
    ∀ q ∈ (supdatePackets s eff dt rs).1.packets, q.active = true →
      q.hops ≤ MAX_HOPS := by
  rw [supdatePackets_packets]
  intro q hq
  refine @sfold_mem (fun q => q.active = true → q.hops ≤ MAX_HOPS) s.nodes dt
    s.packets ([], eff, rs) (by simp) ?_ q (scleanup_subset _ _ hq)
  intro eff2 rs2 p hp
  exact fun h => sprocess_hops s.nodes dt eff2 rs2 p (hpre p hp) h

/-- C2: along every sequence of emissions, ticks, resizes and effect
advances, an active packet's hop count never exceeds the configured maximum
(`PACKET_MAX_HOPS` in the lattice variant, `MAX_HOPS` in the scatter
variant); and an arrival that pushes the hop count past the limit always
deactivates the packet in that same arrival step. -/
theorem C2_hop_limit :
    (∀ s, LReach s → ∀ p ∈ s.packets, p.active = true → p.hops ≤ PACKET_MAX_HOPS) ∧
    (∀ s, SReach s → ∀ p ∈ s.packets, p.active = true → p.hops ≤ MAX_HOPS) ∧
    (∀ (edges : List LEdge) (eff : LEffects) (p : LPacket) (a r : ℕ),
      PACKET_MAX_HOPS < ((lhandlePacketArrival edges eff p a r).1).hops →
      ((lhandlePacketArrival edges eff p a r).1).active = false) ∧
    (∀ (nodes : List SNode) (eff : SEffects) (p : SPacket) (r : ℕ),
      MAX_HOPS < ((shandlePacketArrival nodes eff p r).1).hops →
      ((shandlePacketArrival nodes eff p r).1).active = false) := by
  refine ⟨?_, ?_, lhandle_over_limit, shandle_over_limit⟩
  · intro s h
    induction h with
    | init s h => simp [h]
    | emit s rnd h ih =>
      rcases lsend_packets s rnd with heq | ⟨pk, h0, -, -, heq⟩ <;> rw [heq]
      · exact ih
      · intro p hp
        rcases List.mem_append.mp hp with hp | hp
        · exact ih p hp
        · intro _
          simp only [List.mem_singleton] at hp
          subst hp; omega
    | update s dt rs h ih => exact lupdate_hops s dt rs ih
    | dims s w h2 rnd h ih => rw [ldims_packets]; exact ih
    | fx s dt h ih => rw [lfx_packets]; exact ih
    | move s sq dt acc damping maxSpeed ret radius rnd h ih =>
      rw [lmove_packets]; exact ih
  · intro s h
    induction h with
    | init s h => simp [h]
    | emit s rnd h ih =>
      rcases ssend_packets s rnd with heq | ⟨pk, h0, -, -, heq⟩ <;> rw [heq]
      · exact ih
      · intro p hp
        rcases List.mem_append.mp hp with hp | hp
        · exact ih p hp
        · intro _
          simp only [List.mem_singleton] at hp
          subst hp; omega
    | update s eff dt rs h ih => exact supdate_hops s eff dt rs ih
    | resize s w h2 h ih => rw [sresize_packets]; exact ih
    | move s sq dt rnd h ih => rw [smove_packets]; exact ih

/-- Witness for `C2_hop_limit` at concrete inputs: the packet emitted into a
concrete two-node network, and arrivals that push a packet past the limit. -/
theorem C2_witness :
    ((⟨0, 1, 1, 0, 0, 0, 0, [0], true⟩ : LPacket).hops ≤ PACKET_MAX_HOPS) ∧
    ((⟨0, 1, 0, true, 0, none, false, none, some 1⟩ : SPacket).hops ≤ MAX_HOPS) ∧
    ((lhandlePacketArrival [] ⟨[], [], []⟩ ⟨0, 1, 9, 0, 0, 1, 3, [0], true⟩ 1 0).1).active
      = false ∧
    ((shandlePacketArrival [] ⟨[], [], []⟩ ⟨0, 1, 1, true, 3, none, false, none, some 9⟩
        0).1).active = false := by
  refine ⟨?_, ?_, ?_, ?_⟩
  · exact C2_hop_limit.1 (lsendRandomPacket cxC2LBase cxC2LRand)
      (LReach.emit _ _ (LReach.init _ rfl)) ⟨0, 1, 1, 0, 0, 0, 0, [0], true⟩
      (by norm_num [lsendRandomPacket, lemitFrom, loutgoing, lplanWalk,
        cxC2LBase, cxC2LRand]) rfl
  · exact C2_hop_limit.2.1 (ssendRandomPacket cxC2SBase cxC2SRand)
      (SReach.emit _ _ (SReach.init _ rfl)) ⟨0, 1, 0, true, 0, none, false, none, some 1⟩
      (by norm_num [ssendRandomPacket, sgetRandomNode, cxC2SBase, cxC2SRand]) rfl
  · exact C2_hop_limit.2.2.1 [] ⟨[], [], []⟩ ⟨0, 1, 9, 0, 0, 1, 3, [0], true⟩ 1 0
      (by norm_num [lhandlePacketArrival, PACKET_MAX_HOPS])
  · exact C2_hop_limit.2.2.2 [] ⟨[], [], []⟩ ⟨0, 1, 1, true, 3, none, false, none, some 9⟩ 0
      (by norm_num [shandlePacketArrival, MAX_HOPS])

/-! ## C3: progress stays in [0, 1] across `updatePackets` -/

/-- The lattice arrival handler always leaves progress at 0 (it resets it at
entry, before any branch). -/
theorem lhandle_progress (edges : List LEdge) (eff : LEffects) (p : LPacket)
    (a r : ℕ) : ((lhandlePacketArrival edges eff p a r).1).progress = 0 := by
  simp only [lhandlePacketArrival]
  split_ifs <;> rfl

/-- A packet leaving the scatter arrival handler still active has progress 0
(the forwarding branch is the only one that keeps it active). -/
theorem shandle_progress (nodes : List SNode) (eff : SEffects) (p : SPacket)
    (r : ℕ) (h : ((shandlePacketArrival nodes eff p r).1).active = true) :
    ((shandlePacketArrival nodes eff p r).1).progress = 0 := by
  simp only [shandlePacketArrival] at h ⊢
  split_ifs at h ⊢ <;> simp_all

/-- One lattice packet-processing step keeps an active packet's progress in
`[0, 1]`, given a nonnegative time delta and nonnegative incoming progress. -/
theorem lprocess_progress (nodes : List LNode) (edges : List LEdge) (dt : ℚ)
    (eff : LEffects) (rs : List ℕ) (p : LPacket) (hdt : 0 ≤ dt)
    (hpre : 0 ≤ p.progress)
    (h : ((lprocessPacket nodes edges dt eff rs p).1).active = true) :
    0 ≤ ((lprocessPacket nodes edges dt eff rs p).1).progress ∧
    ((lprocessPacket nodes edges dt eff rs p).1).progress ≤ 1 := by
  have hsp : 0 ≤ L_PACKET_SPEED * dt := by
    have : (0 : ℚ) ≤ L_PACKET_SPEED := by norm_num [L_PACKET_SPEED]
    exact mul_nonneg this hdt
  simp only [lprocessPacket] at h ⊢
  split_ifs at h ⊢ with h1 h2
  · constructor <;> simp_all
  all_goals
    simp only [lhandle_progress] <;>
    constructor <;>
    first
      | norm_num
      | simp_all
      | (push_neg at h2; constructor <;> [positivity; linarith])
  · push_neg at h2; linarith
  · push_neg at h2; linarith
  · push_neg at h2; linarith
  · push_neg at h2; linarith

/-- One scatter packet-processing step keeps an active packet's progress in
`[0, 1]`. -/
theorem sprocess_progress (nodes : List SNode) (dt : ℚ) (eff : SEffects)
    (rs : List ℕ) (p : SPacket) (hdt : 0 ≤ dt) (hpre : 0 ≤ p.progress)
    (h : ((sprocessPacket nodes dt eff rs p).1).active = true) :
    0 ≤ ((sprocessPacket nodes dt eff rs p).1).progress ∧
    ((sprocessPacket nodes dt eff rs p).1).progress ≤ 1 := by
  have hsp : 0 ≤ dt * S_PACKET_SPEED := by
    have : (0 : ℚ) ≤ S_PACKET_SPEED := by norm_num [S_PACKET_SPEED]
    exact mul_nonneg hdt this
  simp only [sprocessPacket] at h ⊢
  split_ifs at h ⊢ with h1 h2
  · constructor <;> simp_all
  · rw [shandle_progress _ _ _ _ (by simpa using h)]
    norm_num
  · push_neg at h2
    constructor
    · simp only []; positivity
    · simpa using le_of_lt h2

/-- C3: for nonnegative `dt`, `updatePackets` leaves every still-active
packet's progress inside `[0, 1]` in both variants (progress reaching 1 is
handled by the arrival, which either resets it to 0 on forwarding or
deactivates the packet). -/
theorem C3_progress_bounds :
    (∀ (s : LState) (dt : ℚ) (rs : List ℕ), 0 ≤ dt →
      (∀ p ∈ s.packets, 0 ≤ p.progress) →
      ∀ q ∈ (lupdatePackets s dt rs).packets, q.active = true →
        0 ≤ q.progress ∧ q.progress ≤ 1) ∧
    (∀ (s : SState) (eff : SEffects) (dt : ℚ) (rs : List ℕ), 0 ≤ dt →
      (∀ p ∈ s.packets, 0 ≤ p.progress) →
      ∀ q ∈ (supdatePackets s eff dt rs).1.packets, q.active = true →
        0 ≤ q.progress ∧ q.progress ≤ 1) := by
  constructor
  · intro s dt rs hdt hpre
    rw [lupdatePackets_packets]
    refine @lfold_mem
      (fun q => q.active = true → 0 ≤ q.progress ∧ q.progress ≤ 1)
      s.nodes s.edges dt _ _ (by simp) ?_
    intro eff2 rs2 p hp
    exact lprocess_progress s.nodes s.edges dt eff2 rs2 p hdt
      (hpre p (lsweepActive_subset _ _ hp))
  · intro s eff dt rs hdt hpre
    rw [supdatePackets_packets]
    intro q hq
    refine @sfold_mem
      (fun q => q.active = true → 0 ≤ q.progress ∧ q.progress ≤ 1)
      s.nodes dt s.packets ([], eff, rs) (by simp) ?_ q (scleanup_subset _ _ hq)
    intro eff2 rs2 p hp
    exact sprocess_progress s.nodes dt eff2 rs2 p hdt (hpre p hp)

/-- Witness for `C3_progress_bounds`: the concrete two-packet runs of the C1
network and the C10 network. -/
theorem C3_witness :
    (∀ q ∈ (lupdatePackets cxC1State (1/2) [0]).packets, q.active = true →
      0 ≤ q.progress ∧ q.progress ≤ 1) ∧
    (∀ q ∈ (supdatePackets cxC10State ⟨[], [], []⟩ (1/2) [0]).1.packets,
      q.active = true → 0 ≤ q.progress ∧ q.progress ≤ 1) :=
  ⟨C3_progress_bounds.1 cxC1State (1/2) [0] (by norm_num)
      (by norm_num [cxC1State]),
   C3_progress_bounds.2 cxC10State ⟨[], [], []⟩ (1/2) [0] (by norm_num)
      (by norm_num [cxC10State])⟩

/-! ## C4: next-hop selection -/

theorem lstage1_subset (edges : List LEdge) (a : ℕ) (l : Option ℕ) (path : List ℕ)
    (e : LEdge) (h : e ∈ lstage1 edges a l path) : e ∈ loutgoing edges a := by
  simp only [lstage1, List.mem_filter, Bool.and_eq_true] at h
  exact List.mem_filter.mpr ⟨h.1, h.2.1.1⟩

theorem lstage2_subset (edges : List LEdge) (a : ℕ) (l : Option ℕ)
    (e : LEdge) (h : e ∈ lstage2 edges a l) : e ∈ loutgoing edges a := by
  simp only [lstage2, List.mem_filter, Bool.and_eq_true] at h
  exact List.mem_filter.mpr ⟨h.1, h.2.1⟩

/-- The packet component of the lattice arrival handler, with the branch
conditions written over the original packet. -/
theorem lhandle_fst (edges : List LEdge) (eff : LEffects) (p : LPacket) (a r : ℕ) :
    (lhandlePacketArrival edges eff p a r).1 =
      (if a = p.finalTargetId then
        { p with progress := 0, path := p.path ++ [a], active := false }
      else if PACKET_MAX_HOPS ≤ p.hops + 1 then
        { p with progress := 0, path := p.path ++ [a], hops := p.hops + 1,
                 active := false }
      else if (lstage1 edges a (llastNodeOf (p.path ++ [a])) (p.path ++ [a])).isEmpty then
        if !(lstage2 edges a (llastNodeOf (p.path ++ [a]))).isEmpty then
          { p with progress := 0, path := p.path ++ [a], hops := p.hops + 1,
                   sourceId := a,
                   targetId := ((lstage2 edges a (llastNodeOf (p.path ++ [a]))).getD
                     (r % (lstage2 edges a (llastNodeOf (p.path ++ [a]))).length)
                     default).targetId }
        else if !(loutgoing edges a).isEmpty then
          { p with progress := 0, path := p.path ++ [a], hops := p.hops + 1,
                   sourceId := a,
                   targetId := ((loutgoing edges a).getD
                     (r % (loutgoing edges a).length) default).targetId }
        else
          { p with progress := 0, path := p.path ++ [a], hops := p.hops + 1,
                   active := false }
      else
        { p with progress := 0, path := p.path ++ [a], hops := p.hops + 1,
                 sourceId := a,
                 targetId := ((lstage1 edges a (llastNodeOf (p.path ++ [a]))
                     (p.path ++ [a])).getD
                   (r % (lstage1 edges a (llastNodeOf (p.path ++ [a]))
                     (p.path ++ [a])).length) default).targetId }) := by
  simp only [lhandlePacketArrival]
  split_ifs <;> rfl

/-- Lattice `_handlePacketArrival` at a non-final node under the hop limit
follows the three-stage relaxation, and deactivates exactly when the
arrived node has no outgoing edges. -/
theorem lhandle_relaxation (edges : List LEdge) (eff : LEffects) (p : LPacket)
    (a r : ℕ) (hact : p.active = true) (hfin : a ≠ p.finalTargetId)
    (hhops : p.hops + 1 < PACKET_MAX_HOPS) :
    (lstage1 edges a (llastNodeOf (p.path ++ [a])) (p.path ++ [a]) ≠ [] →
      ((lhandlePacketArrival edges eff p a r).1).active = true ∧
      ((lhandlePacketArrival edges eff p a r).1).sourceId = a ∧
      ((lhandlePacketArrival edges eff p a r).1).targetId ∈
        (lstage1 edges a (llastNodeOf (p.path ++ [a])) (p.path ++ [a])).map
          (fun e => e.targetId)) ∧
    (lstage1 edges a (llastNodeOf (p.path ++ [a])) (p.path ++ [a]) = [] →
      lstage2 edges a (llastNodeOf (p.path ++ [a])) ≠ [] →
      ((lhandlePacketArrival edges eff p a r).1).active = true ∧
      ((lhandlePacketArrival edges eff p a r).1).sourceId = a ∧
      ((lhandlePacketArrival edges eff p a r).1).targetId ∈
        (lstage2 edges a (llastNodeOf (p.path ++ [a]))).map (fun e => e.targetId)) ∧
    (lstage1 edges a (llastNodeOf (p.path ++ [a])) (p.path ++ [a]) = [] →
      lstage2 edges a (llastNodeOf (p.path ++ [a])) = [] →
      loutgoing edges a ≠ [] →
      ((lhandlePacketArrival edges eff p a r).1).active = true ∧
      ((lhandlePacketArrival edges eff p a r).1).sourceId = a ∧
      ((lhandlePacketArrival edges eff p a r).1).targetId ∈
        (loutgoing edges a).map (fun e => e.targetId)) ∧
    (((lhandlePacketArrival edges eff p a r).1).active = false ↔
      loutgoing edges a = []) := by
  rw [lhandle_fst, if_neg hfin, if_neg (not_le.mpr hhops)]
  by_cases h3 : (lstage1 edges a (llastNodeOf (p.path ++ [a])) (p.path ++ [a])).isEmpty
  · rw [if_pos h3]
    have h3e : lstage1 edges a (llastNodeOf (p.path ++ [a])) (p.path ++ [a]) = [] :=
      List.isEmpty_iff.mp h3
    by_cases h4 : (lstage2 edges a (llastNodeOf (p.path ++ [a]))).isEmpty
    · rw [if_neg (by simp [h4])]
      have h4e : lstage2 edges a (llastNodeOf (p.path ++ [a])) = [] :=
        List.isEmpty_iff.mp h4
      by_cases h5 : (loutgoing edges a).isEmpty
      · rw [if_neg (by simp [h5])]
        have h5e : loutgoing edges a = [] := List.isEmpty_iff.mp h5
        refine ⟨fun hc => absurd h3e hc, fun _ hc => absurd h4e hc,
          fun _ _ hc => absurd h5e hc, by simp [h5e]⟩
      · rw [if_pos (by simp [h5])]
        have h5e : loutgoing edges a ≠ [] := by
          intro hc; rw [hc] at h5; exact h5 rfl
        refine ⟨fun hc => absurd h3e hc, fun _ hc => absurd h4e hc,
          fun _ _ _ => ⟨by simpa using hact, rfl,
            List.mem_map_of_mem _ (getD_mod_mem _ r default h5e)⟩, ?_⟩
        simp only [hact]
        constructor
        · intro hc; exact absurd hc (by simp)
        · intro hc; exact absurd hc h5e
    · rw [if_pos (by simp [h4])]
      have h4e : lstage2 edges a (llastNodeOf (p.path ++ [a])) ≠ [] := by
        intro hc; rw [hc] at h4; exact h4 rfl
      have h5e : loutgoing edges a ≠ [] := by
        intro hc
        rcases List.exists_mem_of_ne_nil _ h4e with ⟨e, he⟩
        have := lstage2_subset edges a _ e he
        rw [hc] at this
        exact absurd this (List.not_mem_nil e)
      refine ⟨fun hc => absurd h3e hc, fun _ _ => ⟨by simpa using hact, rfl,
        List.mem_map_of_mem _ (getD_mod_mem _ r default h4e)⟩,
        fun _ hc => absurd hc h4e, ?_⟩
      simp only [hact]
      constructor
      · intro hc; exact absurd hc (by simp)
      · intro hc; exact absurd hc h5e
  · rw [if_neg h3]
    have h3e : lstage1 edges a (llastNodeOf (p.path ++ [a])) (p.path ++ [a]) ≠ [] := by
      intro hc; rw [hc] at h3; exact h3 rfl
    have h5e : loutgoing edges a ≠ [] := by
      intro hc
      rcases List.exists_mem_of_ne_nil _ h3e with ⟨e, he⟩
      have := lstage1_subset edges a _ _ e he
      rw [hc] at this
      exact absurd this (List.not_mem_nil e)
    refine ⟨fun _ => ⟨by simpa using hact, rfl,
      List.mem_map_of_mem _ (getD_mod_mem _ r default h3e)⟩,
      fun hc => absurd hc h3e, fun hc => absurd hc h3e, ?_⟩
    simp only [hact]
    constructor
    · intro hc; exact absurd hc (by simp)
    · intro hc; exact absurd hc h5e

/-- Scatter `_handlePacketArrival` at a non-final node under the hop limit:
a single selection stage over the neighbors minus the immediate
predecessor; the packet is deactivated whenever that list is empty, even if
the node has connections. -/
theorem shandle_single_stage (nodes : List SNode) (eff : SEffects) (p : SPacket)
    (r : ℕ) (hact : p.active = true) (hfin : p.finalTargetId ≠ some p.targetId)
    (hhops : p.hops + 1 ≤ MAX_HOPS) :
    (sgetValidNeighbors (sfind nodes p.targetId).connections p.prevNodeId = [] →
      ((shandlePacketArrival nodes eff p r).1).active = false) ∧
    (sgetValidNeighbors (sfind nodes p.targetId).connections p.prevNodeId ≠ [] →
      ((shandlePacketArrival nodes eff p r).1).active = true ∧
      ((shandlePacketArrival nodes eff p r).1).sourceId = p.targetId ∧
      ((shandlePacketArrival nodes eff p r).1).targetId ∈
        sgetValidNeighbors (sfind nodes p.targetId).connections p.prevNodeId) := by
  simp only [shandlePacketArrival]
  rw [if_neg hfin, if_neg (by simpa using not_lt.mpr hhops)]
  by_cases hn : (sgetValidNeighbors (sfind nodes p.targetId).connections p.prevNodeId).isEmpty
  · rw [if_pos hn]
    have hne : sgetValidNeighbors (sfind nodes p.targetId).connections p.prevNodeId = [] :=
      List.isEmpty_iff.mp hn
    exact ⟨fun _ => rfl, fun hc => absurd hne hc⟩
  · rw [if_neg hn]
    have hne : sgetValidNeighbors (sfind nodes p.targetId).connections p.prevNodeId ≠ [] := by
      intro hc; rw [hc] at hn; exact hn rfl
    refine ⟨fun hc => absurd hc hne, fun _ => ⟨by simpa using hact, rfl, ?_⟩⟩
    exact getD_mod_mem _ r 0 hne

/-- C4 (corrected): the lattice variant follows the three-stage relaxation
exactly and deactivates only when the arrived node has no outgoing edges;
the scatter variant has a single stage (connections minus the immediate
predecessor) and deactivates whenever it is empty, even when the node still
has connections. -/
theorem C4_next_hop_selection :
    (∀ (edges : List LEdge) (eff : LEffects) (p : LPacket) (a r : ℕ),
      p.active = true → a ≠ p.finalTargetId → p.hops + 1 < PACKET_MAX_HOPS →
      (lstage1 edges a (llastNodeOf (p.path ++ [a])) (p.path ++ [a]) ≠ [] →
        ((lhandlePacketArrival edges eff p a r).1).active = true ∧
        ((lhandlePacketArrival edges eff p a r).1).sourceId = a ∧
        ((lhandlePacketArrival edges eff p a r).1).targetId ∈
          (lstage1 edges a (llastNodeOf (p.path ++ [a])) (p.path ++ [a])).map
            (fun e => e.targetId)) ∧
      (lstage1 edges a (llastNodeOf (p.path ++ [a])) (p.path ++ [a]) = [] →
        lstage2 edges a (llastNodeOf (p.path ++ [a])) ≠ [] →
        ((lhandlePacketArrival edges eff p a r).1).active = true ∧
        ((lhandlePacketArrival edges eff p a r).1).sourceId = a ∧
        ((lhandlePacketArrival edges eff p a r).1).targetId ∈
          (lstage2 edges a (llastNodeOf (p.path ++ [a]))).map (fun e => e.targetId)) ∧
      (lstage1 edges a (llastNodeOf (p.path ++ [a])) (p.path ++ [a]) = [] →
        lstage2 edges a (llastNodeOf (p.path ++ [a])) = [] →
        loutgoing edges a ≠ [] →
        ((lhandlePacketArrival edges eff p a r).1).active = true ∧
        ((lhandlePacketArrival edges eff p a r).1).sourceId = a ∧
        ((lhandlePacketArrival edges eff p a r).1).targetId ∈
          (loutgoing edges a).map (fun e => e.targetId)) ∧
      (((lhandlePacketArrival edges eff p a r).1).active = false ↔
        loutgoing edges a = [])) ∧
    (∀ (nodes : List SNode) (eff : SEffects) (p : SPacket) (r : ℕ),
      p.active = true → p.finalTargetId ≠ some p.targetId → p.hops + 1 ≤ MAX_HOPS →
      (sgetValidNeighbors (sfind nodes p.targetId).connections p.prevNodeId = [] →
        ((shandlePacketArrival nodes eff p r).1).active = false) ∧
      (sgetValidNeighbors (sfind nodes p.targetId).connections p.prevNodeId ≠ [] →
        ((shandlePacketArrival nodes eff p r).1).active = true ∧
        ((shandlePacketArrival nodes eff p r).1).sourceId = p.targetId ∧
        ((shandlePacketArrival nodes eff p r).1).targetId ∈
          sgetValidNeighbors (sfind nodes p.targetId).connections p.prevNodeId)) :=
  ⟨fun edges eff p a r hact hfin hhops =>
      lhandle_relaxation edges eff p a r hact hfin hhops,
   fun nodes eff p r hact hfin hhops =>
      shandle_single_stage nodes eff p r hact hfin hhops⟩

/-- C4 counterexample to the claim as stated: in the scatter variant, a
packet arriving at node 0 (whose only connection is node 1, the immediate
predecessor) at a non-final node under the hop limit is deactivated even
though node 0 has an outgoing connection — no second or third relaxation
stage is attempted. -/
theorem C4_counterexample :
    ((shandlePacketArrival cxSNodes ⟨[], [], []⟩ cxC4Packet 0).1).active = false ∧
    (sfind cxSNodes 0).connections = [1] ∧
    cxC4Packet.finalTargetId ≠ some cxC4Packet.targetId ∧
    cxC4Packet.hops + 1 ≤ MAX_HOPS := by
  refine ⟨?_, by norm_num [sfind, cxSNodes], by norm_num [cxC4Packet], by norm_num [cxC4Packet, MAX_HOPS]⟩
  norm_num [shandlePacketArrival, sgetValidNeighbors, sfind, cxSNodes, cxC4Packet, MAX_HOPS]

/-- Witness for `C4_next_hop_selection` at concrete inputs: a stage-1 pick
in the lattice variant and a single-stage pick in the scatter variant. -/
theorem C4_witness :
    (((lhandlePacketArrival [⟨1, 2⟩] ⟨[], [], []⟩ ⟨0, 1, 9, 0, 0, 1, 0, [0], true⟩ 1 0).1).active
        = true ∧
      ((lhandlePacketArrival [⟨1, 2⟩] ⟨[], [], []⟩ ⟨0, 1, 9, 0, 0, 1, 0, [0], true⟩ 1 0).1).sourceId
        = 1 ∧
      ((lhandlePacketArrival [⟨1, 2⟩] ⟨[], [], []⟩ ⟨0, 1, 9, 0, 0, 1, 0, [0], true⟩ 1 0).1).targetId
        ∈ (lstage1 [⟨1, 2⟩] 1 (llastNodeOf ([0] ++ [1])) ([0] ++ [1])).map
            (fun e => e.targetId)) ∧
    (((shandlePacketArrival cxSNodes ⟨[], [], []⟩
          ⟨0, 1, 1, true, 0, none, false, none, some 5⟩ 0).1).active = true ∧
      ((shandlePacketArrival cxSNodes ⟨[], [], []⟩
          ⟨0, 1, 1, true, 0, none, false, none, some 5⟩ 0).1).sourceId = 1 ∧
      ((shandlePacketArrival cxSNodes ⟨[], [], []⟩
          ⟨0, 1, 1, true, 0, none, false, none, some 5⟩ 0).1).targetId
        ∈ sgetValidNeighbors (sfind cxSNodes 1).connections none) := by
  constructor
  · exact (C4_next_hop_selection.1 [⟨1, 2⟩] ⟨[], [], []⟩
      ⟨0, 1, 9, 0, 0, 1, 0, [0], true⟩ 1 0 rfl (by norm_num)
      (by norm_num [PACKET_MAX_HOPS])).1
      (by norm_num [lstage1, llastNodeOf])
  · exact (C4_next_hop_selection.2 cxSNodes ⟨[], [], []⟩
      ⟨0, 1, 1, true, 0, none, false, none, some 5⟩ 0 rfl (by norm_num)
      (by norm_num [MAX_HOPS])).2
      (by simp [sgetValidNeighbors, sfind, cxSNodes])

/-! ## C5: emission never fails, resampling -/

/-- A node has no outgoing edges iff the `some(...)` test of the
alternate-source filter is false for it. -/
theorem loutgoing_eq_nil_iff (edges : List LEdge) (i : ℕ) :
    loutgoing edges i = [] ↔ edges.any (fun e => e.sourceId == i) = false := by
  simp [loutgoing, List.filter_eq_nil_iff, List.any_eq_true]

/-- `lemitFrom` with a source that has outgoing edges appends exactly one
packet. -/
theorem lemitFrom_adds (s : LState) (rnd : LEmitRand) (source : LNode)
    (h : loutgoing s.edges source.id ≠ []) :
    (lemitFrom s rnd source).packets.length = s.packets.length + 1 := by
  simp only [lemitFrom]
  rw [if_neg (by simpa [List.isEmpty_iff] using h)]
  simp

/-- C5 (corrected): the lattice `sendRandomPacket` is a no-op on degenerate
networks and when no node has outgoing edges, and resamples a source among
nodes with outgoing edges when the first pick has none; the scatter variant
instead returns silently (modifying nothing) whenever the first pick has no
connections, without resampling. -/
theorem C5_emission_safety :
    (∀ (s : LState) (rnd : LEmitRand), s.nodes.length < 2 ∨ s.edges = [] →
      lsendRandomPacket s rnd = s) ∧
    (∀ (s : LState) (rnd : LEmitRand),
      (∀ n ∈ s.nodes, loutgoing s.edges n.id = []) → lsendRandomPacket s rnd = s) ∧
    (∀ (s : LState) (rnd : LEmitRand),
      ¬ s.nodes.length < 2 → s.edges ≠ [] →
      loutgoing s.edges (s.nodes.getD (rnd.srcIdx % s.nodes.length) default).id = [] →
      (∃ n ∈ s.nodes, loutgoing s.edges n.id ≠ []) →
      ∃ alt ∈ s.nodes, loutgoing s.edges alt.id ≠ [] ∧
        lsendRandomPacket s rnd = lemitFrom s rnd alt ∧
        (lsendRandomPacket s rnd).packets.length = s.packets.length + 1) ∧
    (∀ (s : SState) (rnd : SEmitRand), ¬ s.nodes.length < 2 →
      (s.nodes.getD (rnd.srcIdx % s.nodes.length) default).connections = [] →
      ssendRandomPacket s rnd = s) := by
  refine ⟨?_, ?_, ?_, ?_⟩
  · intro s rnd h
    simp only [lsendRandomPacket]
    rw [if_pos]
    rcases h with h | h
    · exact Or.inl h
    · exact Or.inr (by simpa [List.isEmpty_iff] using h)
  · intro s rnd h
    by_cases hg : s.nodes.length < 2 ∨ s.edges.isEmpty
    · simp only [lsendRandomPacket]; rw [if_pos hg]
    · simp only [lsendRandomPacket]
      rw [if_neg hg]
      have hsrc : s.nodes.getD (rnd.srcIdx % s.nodes.length) default ∈ s.nodes := by
        refine getD_mod_mem _ _ _ ?_
        intro hc
        exact hg (Or.inl (by simp [hc]))
      rw [if_pos (by simpa [List.isEmpty_iff] using h _ hsrc)]
      have hposs : s.nodes.filter (fun n => s.edges.any (fun e => e.sourceId == n.id)) = [] := by
        refine List.filter_eq_nil_iff.mpr ?_
        intro n hn
        simpa using (loutgoing_eq_nil_iff s.edges n.id).mp (h n hn)
      rw [if_pos (by simp [hposs])]
  · intro s rnd hlen hedges hout hex
    simp only [lsendRandomPacket]
    rw [if_neg (by
      rintro (hc | hc)
      · exact hlen hc
      · exact hedges (List.isEmpty_iff.mp hc))]
    rw [if_pos (by simpa [List.isEmpty_iff] using hout)]
    have hposs : s.nodes.filter (fun n => s.edges.any (fun e => e.sourceId == n.id)) ≠ [] := by
      rcases hex with ⟨n, hn, hne⟩
      intro hc
      have : n ∈ s.nodes.filter (fun n => s.edges.any (fun e => e.sourceId == n.id)) := by
        refine List.mem_filter.mpr ⟨hn, ?_⟩
        rcases List.exists_mem_of_ne_nil _ hne with ⟨e, he⟩
        simp only [loutgoing, List.mem_filter] at he
        exact List.any_eq_true.mpr ⟨e, he.1, he.2⟩
      rw [hc] at this
      exact absurd this (List.not_mem_nil n)
    rw [if_neg (by simpa [List.isEmpty_iff] using hposs)]
    set poss := s.nodes.filter (fun n => s.edges.any (fun e => e.sourceId == n.id)) with hdef
    have halt : poss.getD (rnd.altIdx % poss.length) default ∈ poss :=
      getD_mod_mem _ _ _ hposs
    have haltm := List.mem_filter.mp halt
    have haltout : loutgoing s.edges (poss.getD (rnd.altIdx % poss.length) default).id ≠ [] := by
      rw [ne_eq, loutgoing_eq_nil_iff, haltm.2]
      simp
    exact ⟨_, haltm.1, haltout, rfl, lemitFrom_adds s rnd _ haltout⟩
  · intro s rnd hlen hconn
    simp only [ssendRandomPacket]
    split
    · rfl
    · split
      · rfl
      · rw [if_pos (by rw [List.isEmpty_iff]; exact hconn)]

/-- C5 counterexample to the claim as stated: in the scatter variant, when
the randomly chosen source (node 0) has no outgoing edges, the call returns
with no packet added even though nodes 1 and 2 do have outgoing edges — no
resampling happens. -/
theorem C5_counterexample :
    ssendRandomPacket cxC5State ⟨0, [1], 0⟩ = cxC5State ∧
    cxC5State.packets = [] ∧
    ∃ n ∈ cxC5State.nodes, n.connections ≠ [] := by
  refine ⟨rfl, rfl, ⟨1, 10, 0, 10, 0, 0, 0, [2]⟩, by norm_num [cxC5State], by norm_num⟩

/-- Witness for `C5_emission_safety` at concrete inputs. -/
theorem C5_witness :
    lsendRandomPacket ⟨100, 100, [], [], [], ⟨[], [], []⟩⟩
        ⟨0, 0, 0, false, fun _ => 0, fun _ => false⟩ =
      ⟨100, 100, [], [], [], ⟨[], [], []⟩⟩ ∧
    (∃ alt ∈ (⟨100, 100,
        [⟨0, 0, 0, 0, 0, 0, 0, 0, 0⟩, ⟨1, 0, 0, 0, 0, 0, 0, 0, 1⟩],
        [⟨1, 0⟩], [], ⟨[], [], []⟩⟩ : LState).nodes,
      loutgoing [⟨1, 0⟩] alt.id ≠ [] ∧
      lsendRandomPacket ⟨100, 100,
          [⟨0, 0, 0, 0, 0, 0, 0, 0, 0⟩, ⟨1, 0, 0, 0, 0, 0, 0, 0, 1⟩],
          [⟨1, 0⟩], [], ⟨[], [], []⟩⟩
        ⟨0, 0, 0, false, fun _ => 0, fun _ => false⟩ =
        lemitFrom ⟨100, 100,
          [⟨0, 0, 0, 0, 0, 0, 0, 0, 0⟩, ⟨1, 0, 0, 0, 0, 0, 0, 0, 1⟩],
          [⟨1, 0⟩], [], ⟨[], [], []⟩⟩
          ⟨0, 0, 0, false, fun _ => 0, fun _ => false⟩ alt ∧
      (lsendRandomPacket ⟨100, 100,
          [⟨0, 0, 0, 0, 0, 0, 0, 0, 0⟩, ⟨1, 0, 0, 0, 0, 0, 0, 0, 1⟩],
          [⟨1, 0⟩], [], ⟨[], [], []⟩⟩
        ⟨0, 0, 0, false, fun _ => 0, fun _ => false⟩).packets.length = 0 + 1) ∧
    ssendRandomPacket cxC5State ⟨0, [1], 0⟩ = cxC5State := by
  refine ⟨?_, ?_, ?_⟩
  · exact C5_emission_safety.1 _ _ (Or.inl (by norm_num))
  · exact C5_emission_safety.2.2.1 _ _ (by norm_num) (by norm_num)
      (by norm_num [loutgoing]) ⟨⟨1, 0, 0, 0, 0, 0, 0, 0, 1⟩, by norm_num,
        by norm_num [loutgoing]⟩
  · exact C5_emission_safety.2.2.2 cxC5State ⟨0, [1], 0⟩ (by norm_num [cxC5State])
      (by norm_num [cxC5State])

/-! ## C6: resize -/

theorem snormalize_edges (s : SState) (u : Bool) :
    (snormalizeNodePositions s u).edges = s.edges := by
  simp only [snormalizeNodePositions]
  split_ifs <;> rfl

theorem sresize_edges (s : SState) (w h : ℚ) :
    (sresizeCanvas s w h).edges = s.edges := by
  simp only [sresizeCanvas]
  split_ifs with h1
  · rfl
  · rw [snormalize_edges]

theorem ldims_edges (s : LState) (w h : ℚ) (rnd : ℕ → ℚ × ℚ) :
    (lupdateDimensions s w h rnd).edges = s.edges := by
  simp only [lupdateDimensions]
  split_ifs <;> rfl

/-- Mapping a function of the element only over an enumerated list forgets
the indices. -/
theorem map_enumFrom_proj {α β : Type} (l : List α) (n : ℕ) (g : ℕ × α → β)
    (f : α → β) (h : ∀ i a, g (i, a) = f a) :
    (l.enumFrom n).map g = l.map f := by
  induction l generalizing n with
  | nil => rfl
  | cons a t ih => simp [List.enumFrom, h, ih]

theorem map_enum_proj {α β : Type} (l : List α) (g : ℕ × α → β) (f : α → β)
    (h : ∀ i a, g (i, a) = f a) : l.enum.map g = l.map f :=
  map_enumFrom_proj l 0 g f h

/-- C6 (corrected): the scatter `resizeCanvas` zeroes every node's velocity
and re-anchors every origin at the node's new position, touching neither
edges nor packets; the lattice `updateDimensions` also re-anchors origins at
the new positions and leaves edges and packets alone, but it does NOT touch
velocities — they survive the resize unchanged. -/
theorem C6_resize_effects :
    (∀ (s : SState) (w h : ℚ), s.nodes ≠ [] →
      (∀ n ∈ (sresizeCanvas s w h).nodes,
        n.vx = 0 ∧ n.vy = 0 ∧ n.originalX = n.x ∧ n.originalY = n.y) ∧
      (sresizeCanvas s w h).edges = s.edges ∧
      (sresizeCanvas s w h).packets = s.packets) ∧
    (∀ (s : LState) (w h : ℚ) (rnd : ℕ → ℚ × ℚ),
      (lupdateDimensions s w h rnd).nodes.map (fun n => n.vx) =
          s.nodes.map (fun n => n.vx) ∧
      (lupdateDimensions s w h rnd).nodes.map (fun n => n.vy) =
          s.nodes.map (fun n => n.vy) ∧
      (∀ n ∈ (lupdateDimensions s w h rnd).nodes,
        n.originalX = n.x ∧ n.originalY = n.y) ∧
      (lupdateDimensions s w h rnd).edges = s.edges ∧
      (lupdateDimensions s w h rnd).packets = s.packets) := by
  constructor
  · intro s w h hne
    refine ⟨?_, sresize_edges s w h, sresize_packets s w h⟩
    intro n hn
    simp only [sresizeCanvas, snormalizeNodePositions] at hn
    split_ifs at hn with h1 h2
    · exact absurd (List.length_eq_zero.mp h1) hne
    · simp only [List.isEmpty_iff, List.map_eq_nil] at h2
      exact absurd h2 hne
    · simp only [List.map_map, List.mem_map] at hn
      rcases hn with ⟨m, hm, rfl⟩
      simp
  · intro s w h rnd
    by_cases hz : s.nodes.length = 0
    · have hnil : s.nodes = [] := List.length_eq_zero.mp hz
      simp only [lupdateDimensions]
      rw [if_pos hz]
      simp [hnil]
    · refine ⟨?_, ?_, ?_, ldims_edges s w h rnd, ldims_packets s w h rnd⟩
      · simp only [lupdateDimensions]
        rw [if_neg hz]
        simp only [List.map_map]
        exact map_enum_proj s.nodes _ _ (fun i a => rfl)
      · simp only [lupdateDimensions]
        rw [if_neg hz]
        simp only [List.map_map]
        exact map_enum_proj s.nodes _ _ (fun i a => rfl)
      · intro n hn
        simp only [lupdateDimensions] at hn
        rw [if_neg hz] at hn
        simp only [List.mem_map] at hn
        rcases hn with ⟨ic, hic, rfl⟩
        simp

/-- C6 counterexample to the claim as stated: the lattice `updateDimensions`
leaves the node's velocity `(5, 7)` untouched instead of zeroing it. -/
theorem C6_counterexample :
    cxC6State.nodes.map (fun n => (n.vx, n.vy)) = [(5, 7)] ∧
    (lupdateDimensions cxC6State 200 200 (fun _ => (0, 0))).nodes.map
        (fun n => (n.vx, n.vy)) = [(5, 7)] ∧
    ((5 : ℚ), (7 : ℚ)) ≠ ((0 : ℚ), (0 : ℚ)) := by
  refine ⟨by norm_num [cxC6State], ?_, by norm_num⟩
  simp only [lupdateDimensions]
  rw [if_neg (by norm_num [cxC6State])]
  simp only [List.map_map]
  rw [map_enum_proj cxC6State.nodes _ (fun n => (n.vx, n.vy)) (fun i a => rfl)]
  norm_num [cxC6State]

/-- Witness for `C6_resize_effects` at a concrete one-node scatter state. -/
theorem C6_witness :
    (∀ n ∈ (sresizeCanvas ⟨200, 100, [⟨0, 10, 20, 1, 2, 3, 4, []⟩], [], []⟩
        300 300).nodes,
      n.vx = 0 ∧ n.vy = 0 ∧ n.originalX = n.x ∧ n.originalY = n.y) ∧
    (sresizeCanvas ⟨200, 100, [⟨0, 10, 20, 1, 2, 3, 4, []⟩], [], []⟩
        300 300).packets = [] := by
  constructor
  · exact (C6_resize_effects.1 _ 300 300 (by simp)).1
  · rw [(C6_resize_effects.1 ⟨200, 100, [⟨0, 10, 20, 1, 2, 3, 4, []⟩], [], []⟩
      300 300 (by simp)).2.2]

/-! ## C7: no duplicate edges on an unordered pair -/

/-- When the either-direction duplicate check fails, no recorded edge
connects the pair. -/
theorem ledgeExists_false (edges : List LEdge) (a b : ℕ)
    (h : ledgeExists edges a b = false) :
    ∀ e ∈ edges, ¬ lsamePair e ⟨a, b⟩ := by
  intro e he hp
  apply absurd h
  simp only [ledgeExists, Bool.not_eq_false, List.any_eq_true]
  refine ⟨e, he, ?_⟩
  simp only [lsamePair] at hp
  rcases hp with ⟨h1, h2⟩ | ⟨h1, h2⟩ <;> simp [h1, h2]

/-- The lattice per-source candidate loop preserves pairwise distinctness of
unordered pairs. -/
theorem lconnectOne_pairwise (a : ℕ) (cands : List ℕ) (budget : ℕ)
    (edges : List LEdge)
    (h : List.Pairwise (fun e f => ¬ lsamePair e f) edges) :
    List.Pairwise (fun e f => ¬ lsamePair e f) (lconnectOne a cands budget edges) := by
  induction cands generalizing budget edges with
  | nil => simpa [lconnectOne] using h
  | cons t ts ih =>
    simp only [lconnectOne]
    split_ifs with h1 h2
    · exact h
    · exact ih budget edges h
    · refine ih (budget - 1) (edges ++ [⟨a, t⟩]) ?_
      rw [List.pairwise_append]
      refine ⟨h, List.pairwise_singleton _ _, ?_⟩
      intro e he y hy
      simp only [List.mem_singleton] at hy
      subst hy
      exact ledgeExists_false edges a t (by simpa using h2) e he

theorem lcreateEdges_pairwise (sources : List (ℕ × List ℕ × ℕ))
    (edges : List LEdge)
    (h : List.Pairwise (fun e f => ¬ lsamePair e f) edges) :
    List.Pairwise (fun e f => ¬ lsamePair e f) (lcreateEdges sources edges) := by
  induction sources generalizing edges with
  | nil => simpa [lcreateEdges] using h
  | cons src t ih =>
    simp only [lcreateEdges, List.foldl_cons]
    exact ih _ (lconnectOne_pairwise src.1 src.2.1 src.2.2 edges h)

/-- `_addEdge` only appends to connection lists. -/
theorem saddEdge_conns_mono (g : SGraph) (a b x i : ℕ)
    (h : x ∈ g.conns i) : x ∈ (saddEdge g a b).conns i := by
  simp only [saddEdge, Function.update_apply]
  split_ifs <;> simp_all

/-- After `_addEdge a b`, each endpoint is in the other's connections. -/
theorem saddEdge_mem_conns (g : SGraph) (a b : ℕ) :
    b ∈ (saddEdge g a b).conns a ∧ a ∈ (saddEdge g a b).conns b := by
  simp only [saddEdge, Function.update_apply]
  split_ifs <;> simp_all

/-- The scatter per-source candidate loop preserves the coupled invariant:
edges are pairwise distinct as unordered pairs, and every recorded edge is
reflected in both endpoints' connection lists. -/
theorem sconnectOne_inv (pos : ℕ → ℚ × ℚ) (a : ℕ) (cands : List ℕ) (budget : ℕ)
    (g : SGraph)
    (h1 : List.Pairwise (fun e f => ¬ ssamePair e f) g.edges)
    (h2 : ∀ e ∈ g.edges, e.tgt ∈ g.conns e.src ∧ e.src ∈ g.conns e.tgt) :
    List.Pairwise (fun e f => ¬ ssamePair e f) (sconnectOne pos a cands budget g).edges ∧
    ∀ e ∈ (sconnectOne pos a cands budget g).edges,
      e.tgt ∈ (sconnectOne pos a cands budget g).conns e.src ∧
      e.src ∈ (sconnectOne pos a cands budget g).conns e.tgt := by
  induction cands generalizing budget g with
  | nil => exact ⟨h1, h2⟩
  | cons b bs ih =>
    simp only [sconnectOne]
    split_ifs with hb hc hx
    · exact ⟨h1, h2⟩
    · exact ih budget g h1 h2
    · exact ih budget g h1 h2
    · have hnotmem : b ∉ g.conns a := by simpa using hc
      refine ih (budget - 1) (saddEdge g a b) ?_ ?_
      · rw [saddEdge, List.pairwise_append]
        refine ⟨h1, List.pairwise_singleton _ _, ?_⟩
        intro e he y hy
        simp only [List.mem_singleton] at hy
        subst hy
        intro hp
        simp only [ssamePair] at hp
        rcases hp with ⟨hsrc, htgt⟩ | ⟨hsrc, htgt⟩
        · exact hnotmem (htgt ▸ hsrc ▸ (h2 e he).1)
        · exact hnotmem (hsrc ▸ htgt ▸ (h2 e he).2)
      · intro e he
        rw [saddEdge] at he
        simp only [List.mem_append, List.mem_singleton] at he
        rcases he with he | he
        · exact ⟨saddEdge_conns_mono g a b _ _ (h2 e he).1,
            saddEdge_conns_mono g a b _ _ (h2 e he).2⟩
        · subst he
          exact saddEdge_mem_conns g a b

theorem screateEdges_inv (pos : ℕ → ℚ × ℚ) (sources : List (ℕ × List ℕ × ℕ))
    (g : SGraph)
    (h1 : List.Pairwise (fun e f => ¬ ssamePair e f) g.edges)
    (h2 : ∀ e ∈ g.edges, e.tgt ∈ g.conns e.src ∧ e.src ∈ g.conns e.tgt) :
    List.Pairwise (fun e f => ¬ ssamePair e f)
      (sources.foldl (fun g src => sconnectOne pos src.1 src.2.1 src.2.2 g) g).edges ∧
    ∀ e ∈ (sources.foldl (fun g src => sconnectOne pos src.1 src.2.1 src.2.2 g) g).edges,
      e.tgt ∈ (sources.foldl (fun g src => sconnectOne pos src.1 src.2.1 src.2.2 g) g).conns e.src ∧
      e.src ∈ (sources.foldl (fun g src => sconnectOne pos src.1 src.2.1 src.2.2 g) g).conns e.tgt := by
  induction sources generalizing g with
  | nil => exact ⟨h1, h2⟩
  | cons src t ih =>
    simp only [List.foldl_cons]
    have hstep := sconnectOne_inv pos src.1 src.2.1 src.2.2 g h1 h2
    exact ih _ hstep.1 hstep.2

/-- C7: neither edge-generation strategy ever records two edges on the same
unordered node pair, for every candidate order and per-node budget. -/
theorem C7_no_duplicate_edges :
    (∀ sources : List (ℕ × List ℕ × ℕ),
      List.Pairwise (fun e f => ¬ lsamePair e f) (lcreateEdges sources [])) ∧
    (∀ (pos : ℕ → ℚ × ℚ) (sources : List (ℕ × List ℕ × ℕ)),
      List.Pairwise (fun e f => ¬ ssamePair e f) (screateEdges pos sources).edges) := by
  constructor
  · intro sources
    exact lcreateEdges_pairwise sources [] List.Pairwise.nil
  · intro pos sources
    exact (screateEdges_inv pos sources ⟨fun _ => [], []⟩ List.Pairwise.nil
      (by intro e he; exact absurd he (List.not_mem_nil e))).1

/-! ## C8: position integration and the time delta -/

/-- In the main branch of the lattice kinematics, when neither horizontal
boundary clamp fires, the position change along x is exactly the
integration-stage velocity times `dt`. -/
theorem lupdateNode_integrates (sq : ℚ → ℚ) (w h dt acc damping maxSpeed : ℚ)
    (ret : Option ℚ) (radius rx ry : ℚ) (n : LNode)
    (hlo : radius ≤ n.x + (lvelPipeline sq dt acc damping maxSpeed rx ry n).1 * dt)
    (hhi : n.x + (lvelPipeline sq dt acc damping maxSpeed rx ry n).1 * dt ≤ w - radius) :
    (lupdateNode sq w h dt acc damping maxSpeed ret radius rx ry n).x =
      n.x + (lvelPipeline sq dt acc damping maxSpeed rx ry n).1 * dt := by
  simp only [lupdateNode]
  split_ifs <;> first
    | rfl
    | (exfalso; dsimp only at *; linarith)

/-- The scatter node update integrates position by the post-force velocity,
with no `dt` factor, whenever the node is inside its drift radius. -/
theorem supdateNode_integrates (sq : ℚ → ℚ) (ax ay : ℚ) (n : SNode)
    (hdist : ¬ (S_NODE_DRIFT_RADIUS < sq ((n.x - n.originalX) * (n.x - n.originalX) +
        (n.y - n.originalY) * (n.y - n.originalY)))) :
    (supdateNode sq ax ay n).x = n.x + (supdateNode sq ax ay n).vx := by
  simp only [supdateNode]
  split_ifs <;> first | rfl | (exact absurd (by assumption) hdist)

/-- C8 (corrected): both lattice kinematics branches integrate position by
`velocity * dt`; the scatter kinematics ignores the supplied time delta
entirely and integrates position by the bare velocity. -/
theorem C8_position_integration :
    (∀ (dt damping : ℚ) (n : LNode),
      (lstaticNode dt damping n).x = n.x + (lstaticNode dt damping n).vx * dt) ∧
    (∀ (sq : ℚ → ℚ) (w h dt acc damping maxSpeed : ℚ) (ret : Option ℚ)
        (radius rx ry : ℚ) (n : LNode),
      radius ≤ n.x + (lvelPipeline sq dt acc damping maxSpeed rx ry n).1 * dt →
      n.x + (lvelPipeline sq dt acc damping maxSpeed rx ry n).1 * dt ≤ w - radius →
      (lupdateNode sq w h dt acc damping maxSpeed ret radius rx ry n).x =
        n.x + (lvelPipeline sq dt acc damping maxSpeed rx ry n).1 * dt) ∧
    (∀ (sq : ℚ → ℚ) (dt dt2 : ℚ) (rnd : ℕ → ℚ × ℚ) (s : SState),
      supdateNodePositions sq dt rnd s = supdateNodePositions sq dt2 rnd s) ∧
    (∀ (sq : ℚ → ℚ) (ax ay : ℚ) (n : SNode),
      ¬ (S_NODE_DRIFT_RADIUS < sq ((n.x - n.originalX) * (n.x - n.originalX) +
          (n.y - n.originalY) * (n.y - n.originalY))) →
      (supdateNode sq ax ay n).x = n.x + (supdateNode sq ax ay n).vx) :=
  ⟨fun dt damping n => rfl,
   lupdateNode_integrates,
   fun sq dt dt2 rnd s => rfl,
   supdateNode_integrates⟩

/-- C8 counterexample to the claim as stated: a concrete scatter node with
residual velocity `1/10` is updated with `dt = 2` (truthful sqrt oracle for
the two values reached); its position changes by its velocity `49/500`, not
by `velocity * dt = 49/250`. -/
theorem C8_counterexample :
    (supdateNodePositions cxC8Sqrt 2 (fun _ => (1/2, 1/2)) cxC8State).nodes.map
        (fun n => (n.x, n.vx)) = [(49/500, 49/500)] ∧
    cxC8Node.x = 0 ∧
    (49/500 : ℚ) - 0 ≠ ((49/500 : ℚ)) * 2 := by
  refine ⟨?_, rfl, by norm_num⟩
  norm_num [supdateNodePositions, supdateNode, svelPipeline, cxC8State, cxC8Node,
    cxC8Sqrt, S_NODE_ACCELERATION, S_NODE_DAMPING, S_NODE_MAX_SPEED,
    S_NODE_DRIFT_RADIUS, S_NODE_RETURN_FORCE, List.enum, List.enumFrom]

/-- Witness for `C8_position_integration` at concrete inputs. -/
theorem C8_witness :
    (lupdateNode (fun _ => 0) 100 100 2 0 1 0 none 0 (1/2) (1/2)
        ⟨0, 1, 1, 1, 1, 1, 0, 0, 0⟩).x =
      1 + (lvelPipeline (fun _ => 0) 2 0 1 0 (1/2) (1/2)
        ⟨0, 1, 1, 1, 1, 1, 0, 0, 0⟩).1 * 2 ∧
    (supdateNode cxC8Sqrt (1/2) (1/2) cxC8Node).x =
      cxC8Node.x + (supdateNode cxC8Sqrt (1/2) (1/2) cxC8Node).vx := by
  constructor
  · exact C8_position_integration.2.1 (fun _ => 0) 100 100 2 0 1 0 none 0 (1/2) (1/2)
      ⟨0, 1, 1, 1, 1, 1, 0, 0, 0⟩ (by norm_num [lvelPipeline])
      (by norm_num [lvelPipeline])
  · exact C8_position_integration.2.2.2 cxC8Sqrt (1/2) (1/2) cxC8Node
      (by norm_num [cxC8Sqrt, cxC8Node, S_NODE_DRIFT_RADIUS])

/-! ## C9: guarded numeric edge cases -/

theorem cdiv_some (a b : ℚ) (h : b ≠ 0) : cdiv a b = some (a / b) := by
  simp [cdiv, h]

/-- The span fallback is never zero. -/
theorem spanOf_ne_zero (lo hi : ℚ) : spanOf lo hi ≠ 0 := by
  simp only [spanOf]
  split_ifs with h
  · norm_num
  · exact h

/-- The checked normalization always succeeds and agrees with
`_normalizeNodePositions`: its two divisions are guarded by the span
fallback. -/
theorem snormalizeChecked_eq (s : SState) (u : Bool) :
    snormalizeChecked s u = some (snormalizeNodePositions s u) := by
  simp only [snormalizeChecked, snormalizeNodePositions]
  split_ifs with h hu
  · rfl
  all_goals
    have hx : ∀ a : ℚ, cdiv a (spanOf (qmin (s.nodes.map fun n => n.x))
        (qmax (s.nodes.map fun n => n.x))) =
        some (a / spanOf (qmin (s.nodes.map fun n => n.x))
          (qmax (s.nodes.map fun n => n.x))) :=
      fun a => cdiv_some a _ (spanOf_ne_zero _ _)
  all_goals
    have hy : ∀ a : ℚ, cdiv a (spanOf (qmin (s.nodes.map fun n => n.y))
        (qmax (s.nodes.map fun n => n.y))) =
        some (a / spanOf (qmin (s.nodes.map fun n => n.y))
          (qmax (s.nodes.map fun n => n.y))) :=
      fun a => cdiv_some a _ (spanOf_ne_zero _ _)
  all_goals simp only [hx, hy, Option.bind_eq_bind, Option.some_bind, Option.pure_def]
  all_goals rw [mapM_option_some]
  all_goals rfl

/-- The checked scatter node update always succeeds and agrees with the
plain update: every division is guarded (`speed > 1/2 > 0`,
`dist > 0`, the constant drift radius, `dist > 30 > 0`). -/
theorem supdateNodeChecked_eq (sq : ℚ → ℚ) (ax ay : ℚ) (n : SNode) :
    supdateNodeChecked sq ax ay n = some (supdateNode sq ax ay n) := by
  simp only [supdateNodeChecked, supdateNode, svelPipeline, cdiv]
  split_ifs <;> first
    | rfl
    | (exfalso; simp only [S_NODE_MAX_SPEED, S_NODE_DRIFT_RADIUS] at *; linarith)

/-- C9: the zero-span fallback always produces a nonzero divisor, and both
the normalization and the distance-based return force are free of division
by zero: their division-checked mirrors always succeed and agree with the
plain definitions (for every sqrt oracle), so no NaN/Infinity can arise from
these operations. -/
theorem C9_numeric_guards :
    (∀ lo hi : ℚ, spanOf lo hi ≠ 0) ∧
    (∀ (s : SState) (u : Bool),
      snormalizeChecked s u = some (snormalizeNodePositions s u)) ∧
    (∀ (sq : ℚ → ℚ) (ax ay : ℚ) (n : SNode),
      supdateNodeChecked sq ax ay n = some (supdateNode sq ax ay n)) :=
  ⟨spanOf_ne_zero, snormalizeChecked_eq, supdateNodeChecked_eq⟩

/-! ## C10: scatter final target is any node other than the source -/

/-- `_getRandomNode(exclude)` never returns the excluded node when the
network has more than one node, and always returns a member of the node
list. -/
theorem sgetRandomNode_spec (nodes : List SNode) (srcId : ℕ) (idxs : List ℕ)
    (t : SNode) (hlen : 1 < nodes.length)
    (h : sgetRandomNode nodes (some srcId) idxs = some t) :
    t.id ≠ srcId ∧ t ∈ nodes := by
  induction idxs with
  | nil => exact absurd h (by simp [sgetRandomNode])
  | cons i rest ih =>
    simp only [sgetRandomNode] at h
    split_ifs at h with hcond
    · exact ih h
    · have ht : t = nodes.getD (i % nodes.length) default := by
        simpa using h.symm
      subst ht
      refine ⟨?_, getD_mod_mem _ _ _ (by
        intro hc; rw [hc] at hlen; simp at hlen)⟩
      intro hid
      exact hcond ⟨by rw [hid], hlen⟩

/-- Any node other than the excluded one can be returned: the draw ignores
adjacency and reachability entirely. -/
theorem sgetRandomNode_any (nodes : List SNode) (srcId : ℕ) (t : SNode)
    (hmem : t ∈ nodes) (hne : t.id ≠ srcId) :
    ∃ idxs : List ℕ, sgetRandomNode nodes (some srcId) idxs = some t := by
  rcases List.mem_iff_getElem.mp hmem with ⟨j, hj, hget⟩
  refine ⟨[j], ?_⟩
  have hmod : j % nodes.length = j := Nat.mod_eq_of_lt hj
  have hgd : nodes.getD (j % nodes.length) default = t := by
    rw [hmod, List.getD_eq_getElem?_getD, List.getElem?_eq_getElem hj]
    simpa using hget
  simp only [sgetRandomNode, hgd]
  rw [if_neg]
  rintro ⟨hc, -⟩
  exact hne (by simpa using hc)

/-- Arrival handling over the C10 network keeps the packet's final target
at node 2 and its current target inside the component `{0, 1}`. -/
theorem shandle_c10 (eff : SEffects) (r : ℕ) (p : SPacket)
    (hfin : p.finalTargetId = some 2)
    (htgt : p.targetId = 0 ∨ p.targetId = 1) :
    ((shandlePacketArrival cxC10State.nodes eff p r).1).finalTargetId = some 2 ∧
    (((shandlePacketArrival cxC10State.nodes eff p r).1).targetId = 0 ∨
      ((shandlePacketArrival cxC10State.nodes eff p r).1).targetId = 1) := by
  have hfin2 : ¬ (p.finalTargetId = some p.targetId) := by
    rcases htgt with h | h <;> simp [hfin, h]
  simp only [shandlePacketArrival, if_neg hfin2]
  split_ifs with h2 h3
  · exact ⟨by simpa using hfin, by simpa using htgt⟩
  · exact ⟨by simpa using hfin, by simpa using htgt⟩
  · refine ⟨by simpa using hfin, ?_⟩
    have hne : sgetValidNeighbors (sfind cxC10State.nodes p.targetId).connections
        p.prevNodeId ≠ [] := by
      intro hc
      rw [hc] at h3
      exact h3 rfl
    have hmem := getD_mod_mem (sgetValidNeighbors
      (sfind cxC10State.nodes p.targetId).connections p.prevNodeId) r 0 hne
    have hin := List.mem_of_mem_filter hmem
    dsimp only
    rcases htgt with h | h
    · right
      rw [h] at hin ⊢
      rw [(by decide :
        (sfind cxC10State.nodes (0 : ℕ)).connections = [1])] at hin ⊢
      exact List.mem_singleton.mp hin
    · left
      rw [h] at hin ⊢
      rw [(by decide :
        (sfind cxC10State.nodes (1 : ℕ)).connections = [0])] at hin ⊢
      exact List.mem_singleton.mp hin

/-- Packet processing over the C10 network preserves the invariant. -/
theorem sprocess_c10 (dt : ℚ) (eff : SEffects) (rs : List ℕ) (p : SPacket)
    (hfin : p.finalTargetId = some 2)
    (htgt : p.targetId = 0 ∨ p.targetId = 1) :
    ((sprocessPacket cxC10State.nodes dt eff rs p).1).finalTargetId = some 2 ∧
    (((sprocessPacket cxC10State.nodes dt eff rs p).1).targetId = 0 ∨
      ((sprocessPacket cxC10State.nodes dt eff rs p).1).targetId = 1) := by
  simp only [sprocessPacket]
  split_ifs with h1 h2
  · exact ⟨hfin, htgt⟩
  · exact shandle_c10 eff (rs.headD 0) _ (by simpa using hfin) (by simpa using htgt)
  · exact ⟨by simpa using hfin, by simpa using htgt⟩

/-- Every state reachable from the C10 network by packet updates keeps its
node list and satisfies the invariant. -/
theorem sreach10_inv (s : SState) (h : SReachFrom cxC10State s) :
    s.nodes = cxC10State.nodes ∧
    ∀ p ∈ s.packets, p.finalTargetId = some 2 ∧
      (p.targetId = 0 ∨ p.targetId = 1) := by
  induction h with
  | refl =>
    refine ⟨rfl, ?_⟩
    intro p hp
    have : p = ⟨0, 1, 0, true, 0, none, false, none, some 2⟩ := by
      simpa [cxC10State] using hp
    subst this
    exact ⟨rfl, Or.inr rfl⟩
  | update s eff dt rs h ih =>
    refine ⟨ih.1, ?_⟩
    rw [supdatePackets_packets]
    intro q hq
    refine @sfold_mem (fun q => q.finalTargetId = some 2 ∧
        (q.targetId = 0 ∨ q.targetId = 1)) s.nodes dt s.packets ([], eff, rs)
      (by simp) ?_ q (scleanup_subset _ _ hq)
    intro eff2 rs2 p hp
    have hpre := ih.2 p hp
    rw [ih.1]
    exact sprocess_c10 dt eff2 rs2 p hpre.1 hpre.2

/-- C10: the scatter `sendRandomPacket` picks its final destination among
all nodes other than the source — any such node can be drawn, and the
picked one is never the source — with no adjacency or reachability
constraint; on the concrete two-component network `cxC10State` the emitted
packet's final target (node 2) is never the packet's current target along
any update sequence, so the packet can never take the arrived-final branch
and can only terminate by being dropped. -/
theorem C10_unreachable_target :
    (∀ (nodes : List SNode) (srcId : ℕ) (idxs : List ℕ) (t : SNode),
      1 < nodes.length → sgetRandomNode nodes (some srcId) idxs = some t →
      t.id ≠ srcId ∧ t ∈ nodes) ∧
    (∀ (nodes : List SNode) (srcId : ℕ) (t : SNode), t ∈ nodes → t.id ≠ srcId →
      ∃ idxs : List ℕ, sgetRandomNode nodes (some srcId) idxs = some t) ∧
    (∀ s : SState, SReachFrom cxC10State s →
      ∀ p ∈ s.packets, p.finalTargetId = some 2 ∧ p.targetId ≠ 2) := by
  refine ⟨sgetRandomNode_spec, sgetRandomNode_any, ?_⟩
  intro s h p hp
  have := (sreach10_inv s h).2 p hp
  refine ⟨this.1, ?_⟩
  rcases this.2 with ht | ht <;> simp [ht]

/-- Witness for `C10_unreachable_target` at concrete inputs. -/
theorem C10_witness :
    ((⟨2, 50, 0, 50, 0, 0, 0, [3]⟩ : SNode).id ≠ 0 ∧
      (⟨2, 50, 0, 50, 0, 0, 0, [3]⟩ : SNode) ∈ cxC10State.nodes) ∧
    (∃ idxs : List ℕ, sgetRandomNode cxC10State.nodes (some 0) idxs =
      some ⟨2, 50, 0, 50, 0, 0, 0, [3]⟩) ∧
    (∀ p ∈ (supdatePackets cxC10State ⟨[], [], []⟩ 2 [0]).1.packets,
      p.finalTargetId = some 2 ∧ p.targetId ≠ 2) := by
  refine ⟨?_, ?_, ?_⟩
  · exact C10_unreachable_target.1 cxC10State.nodes 0 [2] ⟨2, 50, 0, 50, 0, 0, 0, [3]⟩
      (by norm_num [cxC10State]) (by norm_num [sgetRandomNode, cxC10State])
  · exact C10_unreachable_target.2.1 cxC10State.nodes 0 ⟨2, 50, 0, 50, 0, 0, 0, [3]⟩
      (by norm_num [cxC10State]) (by norm_num)
  · exact C10_unreachable_target.2.2 _
      (SReachFrom.update cxC10State ⟨[], [], []⟩ 2 [0] SReachFrom.refl)
